import Mathlib

/-!
Verification development for the scouting backend.

Shallow embedding of the modules `scouting/normalize.py`, `scouting/matchups.py`,
`scouting/features.py`, `scouting/randomness.py`, `scouting/scenarios.py` and
`scouting/report.py`.

Conventions of the embedding:
* Python dicts are insertion-ordered association lists (`List (K × V)`); updating
  an existing key keeps its position, a fresh key is appended at the end, exactly
  like CPython dicts.
* Python ints are `Int` (counters that the code only ever increments are `Nat`),
  Python floats are `ℚ` where the code only does field arithmetic and `ℝ` where
  `math.log` / `math.exp` / `math.sqrt` is involved.
* Ambient effects (the wall clock inside `_recency_weight`, the per-process
  string-hash salt inside `_hash_feature`, the unseeded `random.sample` inside
  `_kmeans_fallback`, and the optional sklearn dependency inside the
  `try/except` blocks) are passed explicitly through an `Env` record; a
  `try: sklearn ... except: fallback` block becomes a `match` on an
  `Option`-valued oracle where `none` selects the in-repo fallback branch.
* Fallible raw-data access (`dict.get`) is `Option`; values that CPython would
  render with `str(...)` are embedded as `String`.
-/

namespace Scouting

/-- Lookup in an insertion-ordered dict: first binding of the key, if any. -/
def dictGet? {K V : Type} [DecidableEq K] (d : List (K × V)) (k : K) : Option V :=
  match d with
  | [] => none
  | (k₁, v) :: rest => if k₁ = k then some v else dictGet? rest k

/-- Update-or-append on an insertion-ordered dict: `d[k] = f(d.get(k))`.
An existing key keeps its position (CPython update-in-place), a missing key is
appended at the end (CPython insertion order). -/
def dictUpd {K V : Type} [DecidableEq K] (d : List (K × V)) (k : K) (f : Option V → V) :
    List (K × V) :=
  match d with
  | [] => [(k, f none)]
  | (k₁, v) :: rest => if k₁ = k then (k₁, f (some v)) :: rest else (k₁, v) :: dictUpd rest k f

/-- Keys of a dict in insertion order. -/
def dictKeys {K V : Type} (d : List (K × V)) : List K := d.map Prod.fst

/-- Values of a dict in insertion order. -/
def dictVals {K V : Type} (d : List (K × V)) : List V := d.map Prod.snd

/-- Membership test for `k in d`. -/
def dictHas {K V : Type} [DecidableEq K] (d : List (K × V)) (k : K) : Bool :=
  (dictGet? d k).isSome

/-- Truthiness of an optional string, as CPython evaluates `if s:` where `s`
is `None` or a `str` (the empty string is falsy). -/
def strTruthy (o : Option String) : Bool :=
  match o with
  | none => false
  | some s => s ≠ ""

/-- Python `a or b` on two optional strings (first truthy operand, else `b`). -/
def pyOrStr (a b : Option String) : Option String :=
  if strTruthy a then a else b

/-! ## normalize.py: raw GRID payloads and normalized game records -/

/-- Raw value sitting under the `character` / `champion` / `agent` key of a raw
player dict: either a plain value (rendered with `str(...)`) or a non-empty
object carrying optional `name` / `id` fields. -/
inductive CharField : Type
  | str (s : String)
  | obj (name id : Option String)
deriving DecidableEq, Repr

/-- Raw player dict, typed at the keys `_normalize_players` reads.
Integer-valued keys carry `Option Int` (`_safe_int` sees `None` or an int). -/
structure RawPlayer : Type where
  id : Option String
  name : Option String
  role : Option String
  lane : Option String
  position : Option String
  character : Option CharField
  champion : Option CharField
  agent : Option CharField
  kills : Option Int
  deaths : Option Int
deriving DecidableEq, Repr

/-- Raw team entry dict as read by `_team_state_from_entry` and
`normalize_records`. -/
structure RawTeamEntry : Type where
  id : Option String
  won : Option Bool
  score : Option Int
  kills : Option Int
  deaths : Option Int
  players : List RawPlayer
deriving DecidableEq, Repr

/-- Raw sub-game dict inside `series_state.games`. -/
structure RawGame : Type where
  sequenceNumber : Option Int
  teams : List RawTeamEntry
deriving DecidableEq, Repr

/-- Raw `series_state` dict (`games` and `teams` may be absent or empty; the
code collapses both through `or []`, so they are embedded as plain lists). -/
structure RawSeriesState : Type where
  games : List RawGame
  teams : List RawTeamEntry
deriving DecidableEq, Repr

/-- Opaque tournament payload carried through unchanged. -/
def Tournament : Type := List (String × String)

instance : DecidableEq Tournament := by
  unfold Tournament
  infer_instance

/-- Raw series record produced by the ingest layer (`grid_ingest.RawSeriesRecord`). -/
structure RawSeriesRecord : Type where
  series_id : String
  start_time : String
  tournament : Tournament
  series_state : Option RawSeriesState

/-- Normalized per-player performance (`normalize.PlayerPerf`). -/
structure PlayerPerf : Type where
  player_id : String
  name : Option String
  role : Option String
  character : Option String
  kills : Int
  deaths : Int
deriving DecidableEq, Repr

/-- Normalized per-team game state (`normalize.TeamGameState`). -/
structure TeamGameState : Type where
  team_id : String
  won : Option Bool
  score : Option Int
  kills : Int
  deaths : Int
  players : List PlayerPerf
deriving DecidableEq, Repr

/-- Normalized game record (`normalize.GameRecord`). -/
structure GameRecord : Type where
  series_id : String
  game_number : Int
  start_time : String
  tournament : Tournament
  team : TeamGameState
  opponent : TeamGameState
  result : String
deriving DecidableEq

/-- Embedding of `_safe_int`: `int(value or 0)` on a value that is absent or an
int (`None` and `0` both land on `0`; the `except` branch for unparseable
values is outside the typed input space). -/
def safe_int (value : Option Int) : Int :=
  match value with
  | none => 0
  | some n => n

/-- Truthiness of a raw character field (`if val:`); an `obj` stands for a
non-empty dict and is truthy. -/
def charFieldTruthy (o : Option CharField) : Bool :=
  match o with
  | none => false
  | some (.str s) => s ≠ ""
  | some (.obj _ _) => true

/-- Embedding of the body of `_get_character` for one key:
`val.get("name") or val.get("id")` for dict values, `str(val)` otherwise. -/
def charFieldValue : CharField → Option String
  | .str s => some s
  | .obj name id => pyOrStr name id

/-- Embedding of `_get_character`: first truthy key among
`character`, `champion`, `agent`. -/
def get_character (p : RawPlayer) : Option String :=
  if charFieldTruthy p.character then charFieldValue (p.character.getD (.str ""))
  else if charFieldTruthy p.champion then charFieldValue (p.champion.getD (.str ""))
  else if charFieldTruthy p.agent then charFieldValue (p.agent.getD (.str ""))
  else none

/-- Embedding of `_get_role`: first truthy key among `role`, `lane`, `position`. -/
def get_role (p : RawPlayer) : Option String :=
  if strTruthy p.role then p.role
  else if strTruthy p.lane then p.lane
  else if strTruthy p.position then p.position
  else none

/-- Embedding of `str(x or "")` for an optional string (used for player ids). -/
def pyStrOrEmpty (o : Option String) : String :=
  match pyOrStr o (some "") with
  | some s => s
  | none => ""

/-- Embedding of `_normalize_players`; `roleMap` is the ambient
`_load_role_map()` result (bundled `role_map.json` or the env override). -/
def normalize_players (roleMap : List (String × String)) (players : List RawPlayer) :
    List PlayerPerf :=
  players.map fun p =>
    let character := get_character p
    let role₀ := get_role p
    let role := if ¬ strTruthy role₀ ∧ strTruthy character then
        match character with
        | some c => dictGet? roleMap c
        | none => none
      else role₀
    { player_id := pyStrOrEmpty p.id
      name := p.name
      role := role
      character := character
      kills := safe_int p.kills
      deaths := safe_int p.deaths }

/-- Embedding of `_team_state_from_entry`. -/
def team_state_from_entry (roleMap : List (String × String)) (entry : RawTeamEntry) :
    TeamGameState :=
  { team_id := pyStrOrEmpty entry.id
    won := entry.won
    score := match entry.score with
      | none => none
      | some s => some (safe_int (some s))
    kills := safe_int entry.kills
    deaths := safe_int entry.deaths
    players := normalize_players roleMap entry.players }

/-- Embedding of `_result_from_states`. -/
def result_from_states (team opponent : TeamGameState) : String :=
  if team.won = some true then "win"
  else if opponent.won = some true then "loss"
  else "unknown"

/-- Embedding of `str(t.get("id"))` in the team-matching predicate of
`normalize_records` (CPython renders `None` as the string `None`). -/
def pyStrOfGet (o : Option String) : String :=
  match o with
  | none => "None"
  | some s => s

/-- Embedding of `normalize_records`. -/
def normalize_records (roleMap : List (String × String)) (records : List RawSeriesRecord)
    (team_id opponent_id : String) : List GameRecord :=
  records.flatMap fun record =>
    let state : RawSeriesState := record.series_state.getD ⟨[], []⟩
    let state_games := state.games
    if state_games ≠ [] then
      state_games.filterMap fun g =>
        let teams := g.teams
        let team_entry := teams.find? fun t => pyStrOfGet t.id = team_id
        let opp_entry := teams.find? fun t => pyStrOfGet t.id = opponent_id
        match team_entry, opp_entry with
        | some te, some oe =>
          let team_state := team_state_from_entry roleMap te
          let opp_state := team_state_from_entry roleMap oe
          some
            { series_id := record.series_id
              game_number := safe_int g.sequenceNumber
              start_time := record.start_time
              tournament := record.tournament
              team := team_state
              opponent := opp_state
              result := result_from_states team_state opp_state }
        | _, _ => none
    else
      let teams := state.teams
      let team_entry := teams.find? fun t => pyStrOfGet t.id = team_id
      let opp_entry := teams.find? fun t => pyStrOfGet t.id = opponent_id
      match team_entry, opp_entry with
      | some te, some oe =>
        let team_state := team_state_from_entry roleMap te
        let opp_state := team_state_from_entry roleMap oe
        [{ series_id := record.series_id
           game_number := 0
           start_time := record.start_time
           tournament := record.tournament
           team := team_state
           opponent := opp_state
           result := result_from_states team_state opp_state }]
      | _, _ => []

/-! ## matchups.py: matchup table, Bayesian winrate, counter suggestions -/

/-- Embedding of `matchups.MatchupStats` (pure counters; the code only ever
increments them). -/
structure MatchupStats : Type where
  games : ℕ
  wins : ℕ
deriving DecidableEq, Repr

/-- Embedding of `MatchupStats.posterior_winrate` (defaults `alpha = beta = 2.0`
are passed explicitly at call sites). -/
def MatchupStats.posterior_winrate (s : MatchupStats) (alpha beta : ℚ) : ℚ :=
  ((s.wins : ℚ) + alpha) / ((s.games : ℚ) + alpha + beta)

/-- Embedding of `MatchupStats.confidence`. -/
def MatchupStats.confidence (s : MatchupStats) : ℚ :=
  if s.games ≠ 0 then min 1 ((s.games : ℚ) / 20) else 0

/-- Per-player step of `_index_by_role`. -/
def idxStep (out : List (String × PlayerPerf)) (p : PlayerPerf) :
    List (String × PlayerPerf) :=
  if strTruthy p.role ∧ strTruthy p.character then
    match p.role with
    | some r => if dictHas out r then out else out ++ [(r, p)]
    | none => out
  else out

/-- Embedding of `_index_by_role`: first player per truthy role with a truthy
character, in player-list order. -/
def index_by_role (players : List PlayerPerf) : List (String × PlayerPerf) :=
  players.foldl idxStep []

/-- Key of the matchup table: `(role, our_character, their_character)`. -/
abbrev MatchupKey : Type := String × String × String

/-- Per-role step of the matchup-table loop (the `defaultdict(MatchupStats)`
access followed by the in-place `+= 1` updates becomes one update-or-insert). -/
def matchupRoleStep (won : Option Bool) (opp_by_role : List (String × PlayerPerf))
    (table : List (MatchupKey × MatchupStats)) (rp : String × PlayerPerf) :
    List (MatchupKey × MatchupStats) :=
  match dictGet? opp_by_role rp.1 with
  | none => table
  | some their_player =>
    let ourC := pyStrOrEmpty rp.2.character
    let theirC := pyStrOrEmpty their_player.character
    if ourC = "" ∨ theirC = "" then table
    else
      dictUpd table (rp.1, ourC, theirC) fun old =>
        let s := old.getD ⟨0, 0⟩
        { games := s.games + 1
          wins := s.wins + (if won = some true then 1 else 0) }

/-- Per-game step of `build_matchup_table`. -/
def matchupGameStep (table : List (MatchupKey × MatchupStats)) (g : GameRecord) :
    List (MatchupKey × MatchupStats) :=
  (index_by_role g.team.players).foldl
    (matchupRoleStep g.team.won (index_by_role g.opponent.players)) table

/-- Embedding of `build_matchup_table`. -/
def build_matchup_table (games : List GameRecord) : List (MatchupKey × MatchupStats) :=
  games.foldl matchupGameStep []

/-- Per-player weighted pick pools (`compute_our_pick_pools`); `recencyWeight`
is the ambient `_recency_weight` (it reads the wall clock and applies `exp`). -/
def compute_our_pick_pools (recencyWeight : String → ℝ) (games : List GameRecord) :
    List (String × List (String × ℝ)) :=
  games.foldl
    (fun pools g =>
      let w := recencyWeight g.start_time
      g.team.players.foldl
        (fun pools p =>
          if p.player_id ≠ "" ∧ strTruthy p.character then
            dictUpd pools p.player_id fun old =>
              dictUpd (old.getD []) (pyStrOrEmpty p.character) fun oldw => oldw.getD 0 + w
          else pools)
        pools)
    []

/-- Embedding of `_flatten_pick_rates`. -/
def flatten_pick_rates (pools : List (String × List (String × ℝ))) : List (String × ℝ) :=
  pools.foldl
    (fun flat entry =>
      entry.2.foldl (fun flat cw => dictUpd flat cw.1 fun old => old.getD 0 + cw.2) flat)
    []

/-- Weighted pick row `{"character": ..., "weight": ..., "share": ...}` used by
comfort picks, pick distributions and priority picks. -/
structure PickShare : Type where
  character : String
  weight : ℝ
  share : ℝ

/-- Per-player tendencies entry built by `compute_per_player_tendencies` and
consumed (dynamically typed) by `suggest_counters` and the report builders. -/
structure PerPlayerEntry : Type where
  player_id : String
  name : Option String
  role : Option String
  comfort_picks : List PickShare
  pick_distribution : List PickShare
  volatility : ℝ

/-- Counter candidate row produced by `suggest_counters`. -/
structure CounterCand : Type where
  our_champ : String
  their_champ : String
  expected_winrate : ℚ
  samples : ℕ
  confidence : ℚ
  score : ℝ

/-- Result of `suggest_counters`. -/
structure Counters : Type where
  personalization_level : String
  by_role : List (String × List CounterCand)

/-- Truthiness of the `our_pools` argument (`None` and the empty dict are falsy). -/
def poolsTruthy (our_pools : Option (List (String × List (String × ℝ)))) : Bool :=
  match our_pools with
  | none => false
  | some pools => ¬ pools.isEmpty

/-- Descending stable comparison on candidate scores (`sort(key=score,
reverse=True)`). -/
noncomputable def candLe (a b : CounterCand) : Bool :=
  decide (b.score ≤ a.score)

/-- Embedding of `suggest_counters` (default `top_k = 3` is passed explicitly). -/
noncomputable def suggest_counters (matchup_table : List (MatchupKey × MatchupStats))
    (opponent_players : List (String × PerPlayerEntry))
    (our_pools : Option (List (String × List (String × ℝ)))) (top_k : ℕ) : Counters :=
  let personalization := if poolsTruthy our_pools then "high" else "low"
  let pools := if poolsTruthy our_pools then our_pools.getD []
    else [("team", flatten_pick_rates [])]
  let global_pool := flatten_pick_rates pools
  let by_role := opponent_players.foldl
    (fun rc entry =>
      let opp := entry.2
      let picks := opp.comfort_picks
      if ¬ strTruthy opp.role ∨ picks.isEmpty then rc
      else
        match opp.role with
        | none => rc
        | some role =>
          picks.foldl
            (fun rc pick =>
              if pick.character = "" then rc
              else
                let candidates : List CounterCand := global_pool.filterMap fun cw =>
                  match dictGet? matchup_table (role, cw.1, pick.character) with
                  | none => none
                  | some stats =>
                    let winrate := stats.posterior_winrate 2 2
                    let confidence := stats.confidence
                    some
                      { our_champ := cw.1
                        their_champ := pick.character
                        expected_winrate := winrate
                        samples := stats.games
                        confidence := confidence
                        score := (winrate : ℝ) * (confidence : ℝ) * cw.2 }
                let sorted := candidates.mergeSort candLe
                (sorted.take top_k).foldl
                  (fun rc c => dictUpd rc role fun old => old.getD [] ++ [c]) rc)
            rc)
    []
  { personalization_level := personalization
    by_role := by_role }

/-! ## features.py: entropy, winrates, roster stability, tendencies -/

/-- Embedding of the body of `_entropy` on the value list of the counts dict
(the function reads only `counts.values()`). -/
noncomputable def entropyVals (vals : List ℝ) : ℝ :=
  let total := vals.sum
  if total ≤ 0 then 0
  else
    let probs := (vals.filter fun v => decide (0 < v)).map fun v => v / total
    if probs.isEmpty then 0
    else
      let ent := -(probs.map fun p => p * Real.logb 2 p).sum
      let max_ent := if 1 < probs.length then Real.logb 2 (probs.length : ℝ) else 1
      if max_ent = 0 then 0 else ent / max_ent

/-- Embedding of `_entropy` on a counts dict. -/
noncomputable def pyEntropy (counts : List (String × ℝ)) : ℝ :=
  entropyVals (dictVals counts)

/-- Embedding of `g.opponent if side == "opponent" else g.team`. -/
def sideState (g : GameRecord) (side : String) : TeamGameState :=
  if side = "opponent" then g.opponent else g.team

/-- Result row of `compute_champion_winrates`. -/
structure ChampRow : Type where
  character : String
  games : ℕ
  wins : ℕ
  winrate : ℚ
  stable : Bool
deriving DecidableEq, Repr

/-- Sort key `(stable, games, winrate)` of a champion row, with the boolean
mapped to its Python numeric value. -/
def champKey (r : ChampRow) : ℕ × ℕ × ℚ :=
  (cond r.stable 1 0, r.games, r.winrate)

/-- Lexicographic comparison of champion-row sort keys. -/
def champKeyLe (x y : ℕ × ℕ × ℚ) : Bool :=
  decide (x.1 < y.1) ||
    (decide (x.1 = y.1) &&
      (decide (x.2.1 < y.2.1) || (decide (x.2.1 = y.2.1) && decide (x.2.2 ≤ y.2.2))))

/-- Stable descending comparison used by `rows.sort(key=..., reverse=True)`. -/
def champRowLe (a b : ChampRow) : Bool :=
  champKeyLe (champKey b) (champKey a)

/-- Count increment on a dict (`defaultdict(int)` access plus `+= 1`). -/
def countUpd (d : List (String × ℕ)) (k : String) : List (String × ℕ) :=
  dictUpd d k fun o => o.getD 0 + 1

/-- Per-player step of the counting loop of `compute_champion_winrates`. -/
def cwPlayerStep (won : Option Bool) (cw : List (String × ℕ) × List (String × ℕ))
    (p : PlayerPerf) : List (String × ℕ) × List (String × ℕ) :=
  if strTruthy p.character then
    let c := pyStrOrEmpty p.character
    (countUpd cw.1 c, if won = some true then countUpd cw.2 c else cw.2)
  else cw

/-- Per-game step of the counting loop of `compute_champion_winrates`. -/
def cwGameStep (side : String) (cw : List (String × ℕ) × List (String × ℕ))
    (g : GameRecord) : List (String × ℕ) × List (String × ℕ) :=
  let state := sideState g side
  if state.won = none then cw
  else state.players.foldl (cwPlayerStep state.won) cw

/-- Embedding of `compute_champion_winrates` (default `min_games = 3` is passed
explicitly at call sites). -/
def compute_champion_winrates (games : List GameRecord) (side : String) (min_games : ℕ) :
    List ChampRow :=
  let cw := games.foldl (cwGameStep side) ([], [])
  let counts := cw.1
  let wins := cw.2
  let rows := counts.map fun cn =>
    let n := cn.2
    let w := (dictGet? wins cn.1).getD 0
    { character := cn.1
      games := n
      wins := w
      winrate := if n ≠ 0 then (w : ℚ) / (n : ℚ) else 0
      stable := decide (min_games ≤ n) }
  rows.mergeSort champRowLe

/-- Result of `compute_roster_stability`. -/
structure RosterStability : Type where
  unique_players : ℕ
  games_total : ℕ
  top5_share : ℚ
deriving DecidableEq, Repr

/-- Per-game `seen` set of `compute_roster_stability`, embedded as the dedup
of the truthy player ids (set iteration order only permutes dict insertion
order, which no returned value depends on). -/
def rosterSeen (g : GameRecord) (side : String) : List String :=
  (((sideState g side).players.filter fun p => p.player_id ≠ "").map fun p => p.player_id).dedup

/-- Per-game step of `compute_roster_stability`. -/
def rosterStep (side : String) (st : List (String × ℕ) × ℕ) (g : GameRecord) :
    List (String × ℕ) × ℕ :=
  ((rosterSeen g side).foldl countUpd st.1, st.2 + 1)

/-- Embedding of `compute_roster_stability`. -/
def compute_roster_stability (games : List GameRecord) (side : String) : RosterStability :=
  let st := games.foldl (rosterStep side) ([], 0)
  let player_games := st.1
  let total := st.2
  let sorted := player_games.mergeSort fun a b => decide (b.2 ≤ a.2)
  let top5 := ((sorted.take 5).map Prod.snd).sum
  { unique_players := player_games.length
    games_total := total
    top5_share := if total ≠ 0 then (top5 : ℚ) / (total : ℚ) else 0 }

/-- Result of `compute_match_outcomes`. -/
structure MatchOutcomes : Type where
  games : ℕ
  wins : ℕ
  losses : ℕ
  avg_kills : ℚ
  avg_deaths : ℚ
deriving DecidableEq, Repr

/-- Embedding of `compute_match_outcomes`. -/
def compute_match_outcomes (games : List GameRecord) : MatchOutcomes :=
  let wins := (games.filter fun g => g.opponent.won = some true).length
  let losses := (games.filter fun g => g.opponent.won = some false).length
  let kills := (games.map fun g => g.opponent.kills).sum
  let deaths := (games.map fun g => g.opponent.deaths).sum
  let total := games.length
  { games := total
    wins := wins
    losses := losses
    avg_kills := if total ≠ 0 then (kills : ℚ) / (total : ℚ) else 0
    avg_deaths := if total ≠ 0 then (deaths : ℚ) / (total : ℚ) else 0 }

/-- Result of `compute_data_coverage`. -/
structure DataCoverage : Type where
  games_total : ℕ
  games_with_player_chars : ℕ
  games_with_roles : ℕ
  has_objectives : Bool
deriving DecidableEq, Repr

/-- Embedding of `compute_data_coverage`. -/
def compute_data_coverage (games : List GameRecord) : DataCoverage :=
  { games_total := games.length
    games_with_player_chars :=
      (games.filter fun g => g.opponent.players.any fun p => strTruthy p.character).length
    games_with_roles :=
      (games.filter fun g => g.opponent.players.any fun p => strTruthy p.role).length
    has_objectives := false }

/-- Embedding of the accumulation loop of `_top_comfort_picks` (append rows
until the accumulated share reaches one half, then stop). -/
noncomputable def comfortLoop (total : ℝ) : List (String × ℝ) → ℝ → List PickShare
  | [], _ => []
  | (champ, w) :: rest, acc =>
    let acc₁ := acc + w
    let row : PickShare := ⟨champ, w, w / total⟩
    if 0.5 ≤ acc₁ / total then [row] else row :: comfortLoop total rest acc₁

/-- Embedding of `_top_comfort_picks`. -/
noncomputable def top_comfort_picks (weighted_counts : List (String × ℝ)) : List PickShare :=
  let total := (dictVals weighted_counts).sum
  if total ≤ 0 then []
  else comfortLoop total (weighted_counts.mergeSort fun a b => decide (b.2 ≤ a.2)) 0

/-- Result of `compute_per_player_tendencies`. -/
structure PerPlayerT : Type where
  per_player : List (String × PerPlayerEntry)
  games_with_player_chars : ℕ
  games_total : ℕ

/-- Embedding of `compute_per_player_tendencies`; `recencyWeight` is the
ambient `_recency_weight`. -/
noncomputable def compute_per_player_tendencies (recencyWeight : String → ℝ)
    (games : List GameRecord) : PerPlayerT :=
  let st := games.foldl
    (fun (st : List (String × List (String × ℝ)) × List (String × List (String × ℕ)) ×
        List (String × Option String) × ℕ) g =>
      let w := recencyWeight g.start_time
      let inner := g.opponent.players.foldl
        (fun st p =>
          if p.player_id = "" then st
          else
            let counts := if strTruthy p.character then
                dictUpd st.1 p.player_id fun old =>
                  dictUpd (old.getD []) (pyStrOrEmpty p.character) fun oldw => oldw.getD 0 + w
              else st.1
            let roles := if strTruthy p.role then
                dictUpd st.2.1 p.player_id fun old =>
                  dictUpd (old.getD []) (pyStrOrEmpty p.role) fun oldc => oldc.getD 0 + 1
              else st.2.1
            let names := dictUpd st.2.2.1 p.player_id fun _ => p.name
            (counts, roles, names, st.2.2.2))
        st
      let has_char := g.opponent.players.any fun p => p.player_id ≠ "" ∧ strTruthy p.character
      (inner.1, inner.2.1, inner.2.2.1, inner.2.2.2 + cond has_char 1 0))
    ([], [], [], 0)
  let per_player := st.1.map fun pc =>
    let counts := pc.2
    let comfort := top_comfort_picks counts
    let volatility := pyEntropy counts
    let total := (dictVals counts).sum
    let pick_rates := (counts.mergeSort fun a b => decide (b.2 ≤ a.2)).map fun cw =>
      ({ character := cw.1
         weight := cw.2
         share := if total ≠ 0 then cw.2 / total else 0 } : PickShare)
    let roles := dictGet? st.2.1 pc.1
    let role := match roles with
      | none => none
      | some rl =>
        if rl.isEmpty then none
        else ((rl.mergeSort fun a b => decide (b.2 ≤ a.2)).map Prod.fst).head?
    (pc.1,
      ({ player_id := pc.1
         name := (dictGet? st.2.2.1 pc.1).getD none
         role := role
         comfort_picks := comfort
         pick_distribution := pick_rates
         volatility := volatility } : PerPlayerEntry))
  { per_player := per_player
    games_with_player_chars := st.2.2.2
    games_total := games.length }

/-- Result of `compute_team_draft_tendencies`. -/
structure DraftTendencies : Type where
  priority_picks : List PickShare
  bans : List String
  flex_picks : List String
  missing_bans : Bool

/-- Embedding of `compute_team_draft_tendencies`. -/
noncomputable def compute_team_draft_tendencies (recencyWeight : String → ℝ)
    (games : List GameRecord) : DraftTendencies :=
  let st := games.foldl
    (fun (st : List (String × ℝ) × List (String × List String)) g =>
      let w := recencyWeight g.start_time
      g.opponent.players.foldl
        (fun st p =>
          if strTruthy p.character then
            let c := pyStrOrEmpty p.character
            let counts := dictUpd st.1 c fun old => old.getD 0 + w
            let roles := if strTruthy p.role then
                dictUpd st.2 c fun old =>
                  let rs := old.getD []
                  let r := pyStrOrEmpty p.role
                  if rs.contains r then rs else rs ++ [r]
              else st.2
            (counts, roles)
          else st)
        st)
    ([], [])
  let team_counts := st.1
  let total := (dictVals team_counts).sum
  let priority := (team_counts.mergeSort fun a b => decide (b.2 ≤ a.2)).map fun cw =>
    ({ character := cw.1
       weight := cw.2
       share := if total ≠ 0 then cw.2 / total else 0 } : PickShare)
  let flex := (st.2.filter fun cr => 2 ≤ cr.2.length).map Prod.fst
  { priority_picks := priority.take 10
    bans := []
    flex_picks := flex
    missing_bans := true }

/-- One side of the style triangle. -/
structure StyleSide : Type where
  aggression_raw : ℝ
  control_raw : ℝ
  flexibility_raw : ℝ
  aggression : ℝ
  control : ℝ
  flexibility : ℝ

/-- Result of `compute_style_triangle`. -/
structure StyleTriangle : Type where
  team : StyleSide
  opponent : StyleSide

/-- Embedding of the inner `_style_for` helper of `compute_style_triangle`
(raw axes only; the normalized axes are filled in afterwards). -/
noncomputable def styleFor (games : List GameRecord) (side : String) : ℝ × ℝ × ℝ :=
  let st := games.foldl
    (fun (st : Int × Int × ℕ × ℕ × List ℝ × List (String × ℕ)) g =>
      let state := sideState g side
      let kills := st.1 + state.kills
      let deaths := st.2.1 + state.deaths
      let total := st.2.2.1 + 1
      let wins := st.2.2.2.1 + cond (state.won = some true) 1 0
      let win_list := if state.won = some true then st.2.2.2.2.1 ++ [(1 : ℝ)]
        else if state.won = some false then st.2.2.2.2.1 ++ [(0 : ℝ)]
        else st.2.2.2.2.1
      let champ_counts := state.players.foldl
        (fun cc p =>
          if strTruthy p.character then
            dictUpd cc (pyStrOrEmpty p.character) fun old => old.getD 0 + 1
          else cc)
        st.2.2.2.2.2
      (kills, deaths, total, wins, win_list, champ_counts))
    (0, 0, 0, 0, [], [])
  let kills := st.1
  let deaths := st.2.1
  let total := st.2.2.1
  let wins := st.2.2.2.1
  let win_list := st.2.2.2.2.1
  let champ_counts := st.2.2.2.2.2
  let aggression : ℝ := if kills + deaths ≠ 0 then (kills : ℝ) / ((kills : ℝ) + deaths) else 0
  let winrate : ℝ := if total ≠ 0 then (wins : ℝ) / total else 0
  let winrate_std : ℝ := if ¬ win_list.isEmpty then
      Real.sqrt ((win_list.map fun w => (w - winrate) ^ 2).sum / win_list.length)
    else 0
  let control : ℝ := if total ≠ 0 then
      1 / (1 + (deaths : ℝ) / total) + 1 / (1 + winrate_std)
    else 0
  let flex := pyEntropy (champ_counts.map fun cv => (cv.1, (cv.2 : ℝ)))
  let roster := ((compute_roster_stability games side).top5_share : ℝ)
  let flexibility := flex * (1 + roster)
  (aggression, control, flexibility)

/-- Embedding of the `_norm` pair normalization in `compute_style_triangle`. -/
noncomputable def normPair (a b : ℝ) : ℝ × ℝ :=
  let lo := min a b
  let hi := max a b
  if hi = lo then (0.5, 0.5) else ((a - lo) / (hi - lo), (b - lo) / (hi - lo))

/-- Embedding of `compute_style_triangle`. -/
noncomputable def compute_style_triangle (games : List GameRecord) : StyleTriangle :=
  let team := styleFor games "team"
  let opp := styleFor games "opponent"
  let ag := normPair team.1 opp.1
  let ctrl := normPair team.2.1 opp.2.1
  let flex := normPair team.2.2 opp.2.2
  { team :=
      { aggression_raw := team.1
        control_raw := team.2.1
        flexibility_raw := team.2.2
        aggression := ag.1
        control := ctrl.1
        flexibility := flex.1 }
    opponent :=
      { aggression_raw := opp.1
        control_raw := opp.2.1
        flexibility_raw := opp.2.2
        aggression := ag.2
        control := ctrl.2
        flexibility := flex.2 } }

/-- Per-game feature row shared by `compute_draft_dna_summary` and
`compute_signature_cluster_cards` (the Python `champs` set is embedded as the
dedup list of truthy characters in player order; only its extension matters
downstream). -/
structure DnaRow : Type where
  series_id : String
  game_number : Int
  won : ℝ
  tempo : ℝ
  champs : List String
  roles : List (String × ℕ)

instance : Inhabited DnaRow := ⟨⟨"", 0, 0, 0, [], []⟩⟩

/-- Feature row of one game for one side. -/
def dnaRowOf (g : GameRecord) (side : String) : DnaRow :=
  let state := sideState g side
  { series_id := g.series_id
    game_number := g.game_number
    won := if state.won = some true then 1 else 0
    tempo := ((state.kills + state.deaths : Int) : ℝ)
    champs := ((state.players.filter fun p => strTruthy p.character).map fun p =>
      pyStrOrEmpty p.character).dedup
    roles := state.players.foldl
      (fun rc p =>
        if strTruthy p.role then dictUpd rc (pyStrOrEmpty p.role) fun o => o.getD 0 + 1 else rc)
      [] }

/-- Champion vocabulary: champions sorted by descending count, top `top_n`. -/
noncomputable def champVocab (champ_counts : List (String × ℕ)) (top_n : ℕ) : List String :=
  ((champ_counts.mergeSort fun a b => decide (b.2 ≤ a.2)).take top_n).map Prod.fst

/-- Sorted distinct role keys across rows. -/
def roleKeys (rows : List DnaRow) : List String :=
  (((rows.flatMap fun row => dictKeys row.roles).filter fun r => r ≠ "").dedup).mergeSort
    fun a b => decide (a ≤ b)

/-- Feature vector of a row: champion one-hots over the vocabulary, role
counts over the role keys, then `won` and `tempo` (the index-assignment loops
of the source fill exactly these positions). -/
def dnaVector (champ_vocab role_keys : List String) (row : DnaRow) : List ℝ :=
  (champ_vocab.map fun c => if row.champs.contains c then (1 : ℝ) else 0) ++
    (role_keys.map fun r => (((dictGet? row.roles r).getD 0 : ℕ) : ℝ)) ++
    [row.won, row.tempo]

/-- Embedding of the `_cos` cosine similarity in `compute_draft_dna_summary`. -/
noncomputable def cosSim (a b : List ℝ) : ℝ :=
  let num := ((a.zip b).map fun xy => xy.1 * xy.2).sum
  let da := Real.sqrt ((a.map fun x => x * x).sum)
  let db := Real.sqrt ((b.map fun y => y * y).sum)
  if da = 0 ∨ db = 0 then 0 else num / (da * db)

/-- Reference to a game inside a nearest-neighbor row. -/
structure GameRef : Type where
  series_id : String
  game_number : Int

/-- Nearest-neighbor row of `compute_draft_dna_summary`. -/
structure DnaNeighbor : Type where
  game : GameRef
  nearest : GameRef
  similarity : ℝ

/-- Result of `compute_draft_dna_summary` (`similarity_threshold` is absent
from the empty-input result, hence optional). -/
structure DraftDna : Type where
  games : ℕ
  avg_nn_similarity : ℝ
  similarity_coverage : ℝ
  nearest_neighbors : List DnaNeighbor
  similarity_threshold : Option ℚ

/-- Best-neighbor scan for index `i`: maximum similarity with strictly-greater
updates starting from `(-1.0, None)`. -/
noncomputable def bestNeighbor (x : List (List ℝ)) (i : ℕ) : ℝ × Option ℕ :=
  (List.range x.length).foldl
    (fun best j =>
      if i = j then best
      else
        let s := cosSim (x.getD i []) (x.getD j [])
        if best.1 < s then (s, some j) else best)
    (-1, none)

/-- Embedding of `compute_draft_dna_summary` (defaults `top_n = 50`,
`similarity_threshold = 0.75` are passed explicitly). -/
noncomputable def compute_draft_dna_summary (games : List GameRecord) (side : String)
    (top_n : ℕ) (similarity_threshold : ℚ) : DraftDna :=
  let champ_counts := games.foldl
    (fun cc g =>
      (sideState g side).players.foldl
        (fun cc p =>
          if strTruthy p.character then
            dictUpd cc (pyStrOrEmpty p.character) fun o => o.getD 0 + 1
          else cc)
        cc)
    []
  let champ_vocab := champVocab champ_counts top_n
  let rows := games.map fun g => dnaRowOf g side
  if rows.isEmpty then
    { games := 0
      avg_nn_similarity := 0
      similarity_coverage := 0
      nearest_neighbors := []
      similarity_threshold := none }
  else
    let role_keys := roleKeys rows
    let x := rows.map fun row => dnaVector champ_vocab role_keys row
    let scans := (List.range x.length).map fun i => bestNeighbor x i
    let sims := scans.map Prod.fst
    let neighbors := ((List.range x.length).zip scans).filterMap fun iscan =>
      match iscan.2.2 with
      | none => none
      | some j =>
        let ri := rows.getD iscan.1 default
        let rj := rows.getD j default
        some
          ({ game := ⟨ri.series_id, ri.game_number⟩
             nearest := ⟨rj.series_id, rj.game_number⟩
             similarity := iscan.2.1 } : DnaNeighbor)
    let avg_nn := if ¬ sims.isEmpty then sims.sum / sims.length else 0
    let coverage := if ¬ sims.isEmpty then
        (((sims.filter fun s => decide ((similarity_threshold : ℝ) ≤ s)).length : ℝ) /
          (sims.length : ℝ))
      else 0
    let neighbors_sorted := neighbors.mergeSort fun a b => decide (b.similarity ≤ a.similarity)
    { games := rows.length
      avg_nn_similarity := avg_nn
      similarity_coverage := coverage
      nearest_neighbors := neighbors_sorted.take 10
      similarity_threshold := some similarity_threshold }

/-- Cluster card of `compute_signature_cluster_cards`. -/
structure SigCard : Type where
  cluster_id : Int
  share : ℚ
  winrate : Option ℝ
  top_champs : List String

/-- Result of `compute_signature_cluster_cards`. -/
structure SigClusters : Type where
  games : ℕ
  k : ℕ
  primary_cluster : Option SigCard
  clusters : List SigCard

/-- Embedding of `compute_signature_cluster_cards`; `skSignature` is the
oracle for the `try: sklearn ...` block (`none` selects the in-repo
tempo-median fallback of the `except` branch). -/
noncomputable def compute_signature_cluster_cards
    (skSignature : List (List ℝ) → ℕ → Option (List Int × ℕ))
    (games : List GameRecord) (side : String) (top_n max_clusters : ℕ) : SigClusters :=
  let st := games.foldl
    (fun (st : List DnaRow × List (String × ℕ)) g =>
      let row := dnaRowOf g side
      let cc := row.champs.foldl (fun cc c => dictUpd cc c fun o => o.getD 0 + 1) st.2
      (st.1 ++ [row], cc))
    ([], [])
  let rows := st.1
  let champ_counts := st.2
  if rows.isEmpty then
    { games := 0, k := 0, primary_cluster := none, clusters := [] }
  else
    let champ_vocab := champVocab champ_counts top_n
    let role_keys := roleKeys rows
    let x := rows.map fun row => dnaVector champ_vocab role_keys row
    let n := x.length
    let lk : List Int × ℕ :=
      if n ≤ 1 then (List.replicate n 0, 1)
      else
        match skSignature x (min max_clusters n) with
        | some lk => lk
        | none =>
          let median := ((rows.map fun row => row.tempo).mergeSort
            fun a b => decide (a ≤ b)).getD (rows.length / 2) 0
          (rows.map fun row => if row.tempo ≤ median then (0 : Int) else 1, 2)
    let labels := lk.1
    let clusters := ((labels.zip (List.range n)).foldl
      (fun cl li => dictUpd cl li.1 fun o => o.getD [] ++ [li.2]) [])
    let cards := clusters.map fun cidx =>
      let idxs := cidx.2
      let win_vals := (idxs.map fun i => (rows.getD i default).won).filter
        fun w => decide (w = 0 ∨ w = 1)
      let winrate := if ¬ win_vals.isEmpty then some (win_vals.sum / (win_vals.length : ℝ))
        else none
      let champ_counter := idxs.foldl
        (fun cc i =>
          (rows.getD i default).champs.foldl (fun cc c => dictUpd cc c fun o => o.getD 0 + 1) cc)
        []
      ({ cluster_id := cidx.1
         share := (idxs.length : ℚ) / (n : ℚ)
         winrate := winrate
         top_champs := ((champ_counter.mergeSort fun a b => decide (b.2 ≤ a.2)).take 6).map
           Prod.fst } : SigCard)
    let cards_sorted := cards.mergeSort fun a b => decide (b.share ≤ a.share)
    { games := n
      k := lk.2
      primary_cluster := cards_sorted.head?
      clusters := cards_sorted }

/-- Player row of `compute_player_similarity`. -/
structure SimPlayerEntry : Type where
  id : String
  name : Option String
  pool_size : ℕ
deriving DecidableEq, Repr

/-- Edge row of `compute_player_similarity`. -/
structure SimEdge : Type where
  player_a : SimPlayerEntry
  player_b : SimPlayerEntry
  similarity : ℚ
  shared_champs : List String
deriving DecidableEq, Repr

/-- Result of `compute_player_similarity` (the nested `pool_sizes` cell is
carried inside the two player refs). -/
structure PlayerSim : Type where
  players : List SimPlayerEntry
  edges : List SimEdge
  min_unique_champs : ℕ
deriving DecidableEq, Repr

/-- Ordered pairs `(x_i, x_j)` with `i < j`, in double-loop order. -/
def pairsAfter {α : Type} : List α → List (α × α)
  | [] => []
  | x :: rest => (rest.map fun y => (x, y)) ++ pairsAfter rest

/-- Embedding of `compute_player_similarity` (defaults `min_unique_champs = 3`
and `top_pairs = 30` are passed explicitly; champion-pool sets are dedup
lists, whose extension is all the code observes). -/
def compute_player_similarity (games : List GameRecord) (side : String)
    (min_unique_champs top_pairs : ℕ) : PlayerSim :=
  let st := games.foldl
    (fun (st : List (String × List String) × List (String × String)) g =>
      (sideState g side).players.foldl
        (fun st p =>
          if p.player_id = "" ∨ ¬ strTruthy p.character then st
          else
            let c := pyStrOrEmpty p.character
            let pools := dictUpd st.1 p.player_id fun old =>
              let cs := old.getD []
              if cs.contains c then cs else cs ++ [c]
            let names := if strTruthy p.name then
                dictUpd st.2 p.player_id fun _ => pyStrOrEmpty p.name
              else st.2
            (pools, names))
        st)
    ([], [])
  let pools := st.1
  let names := st.2
  let players := (pools.filter fun pc => min_unique_champs ≤ pc.2.length).map Prod.fst
  let edges := (pairsAfter players).filterMap fun ab =>
    let pa := (dictGet? pools ab.1).getD []
    let pb := (dictGet? pools ab.2).getD []
    let inter := pa.filter fun c => pb.contains c
    let union := pa ++ pb.filter fun c => ¬ pa.contains c
    if union.isEmpty then none
    else
      let sim : ℚ := (inter.length : ℚ) / (union.length : ℚ)
      if sim ≤ 0 then none
      else
        some
          ({ player_a := ⟨ab.1, dictGet? names ab.1, pa.length⟩
             player_b := ⟨ab.2, dictGet? names ab.2, pb.length⟩
             similarity := sim
             shared_champs := inter.mergeSort fun a b => decide (a ≤ b) } : SimEdge)
  let edges_sorted := edges.mergeSort fun a b => decide (b.similarity ≤ a.similarity)
  { players := players.map fun pid =>
      ⟨pid, dictGet? names pid, ((dictGet? pools pid).getD []).length⟩
    edges := edges_sorted.take top_pairs
    min_unique_champs := min_unique_champs }

/-- Counterfactual ban row. -/
structure CfBan : Type where
  ban_champ : String
  ban_games : ℕ
  ban_winrate : ℚ
  replacement : String
  replacement_winrate : ℚ
  estimated_winrate_drop : ℚ
deriving DecidableEq, Repr

/-- Embedding of `compute_counterfactual_bans`. -/
def compute_counterfactual_bans (games : List GameRecord) (side : String) (min_games : ℕ) :
    List CfBan :=
  let champ_stats := compute_champion_winrates games side min_games
  match champ_stats with
  | top :: replacement :: _ =>
    if top.games < min_games ∨ replacement.games < min_games then []
    else
      [{ ban_champ := top.character
         ban_games := top.games
         ban_winrate := top.winrate
         replacement := replacement.character
         replacement_winrate := replacement.winrate
         estimated_winrate_drop := top.winrate - replacement.winrate }]
  | _ => []

/-! ## scenarios.py: hashed game vectors and k-means clustering -/

/-- Scenario card (`scenarios.ScenarioCard`); `signature_picks` is the
role-to-champion dict. -/
structure ScenarioCard : Type where
  scenario_id : Int
  share : ℝ
  winrate : ℝ
  signature_picks : List (String × String)
  volatility : ℝ
  punish_plan : String

/-- Ambient inputs of the clustering pipeline: the per-process string hash of
`_hash_feature`, the two `try: sklearn ... except:` oracles (`none` selects
the in-repo fallback branch), and the unseeded `random.sample` of
`_kmeans_fallback`. -/
structure ClusterEnv : Type where
  hash : String → Int
  skChooseK : List (List ℝ) → Option ℕ
  skLabels : List (List ℝ) → ℕ → Option (List Int)
  sampleCenters : List (List ℝ) → ℕ → List (List ℝ)

/-- Embedding of `_hash_feature`: `abs(hash(key)) % dim`. -/
def hash_feature (hash : String → Int) (key : String) (dim : ℕ) : ℕ :=
  (hash key).natAbs % dim

/-- Embedding of `_game_vector` (default `dim = 32` is passed explicitly). -/
def game_vector (hash : String → Int) (game : GameRecord) (dim : ℕ) : List ℝ :=
  let vec := game.opponent.players.foldl
    (fun vec p =>
      if strTruthy p.role ∧ strTruthy p.character then
        let idx := hash_feature hash
          (pyStrOrEmpty p.role ++ ":" ++ pyStrOrEmpty p.character) dim
        vec.set idx (vec.getD idx 0 + 1)
      else vec)
    (List.replicate dim (0 : ℝ))
  vec ++ [(game.opponent.kills : ℝ), (game.opponent.deaths : ℝ),
    if game.opponent.won = some true then 1 else 0]

/-- Sum of squared coordinate differences over the zipped vectors. -/
noncomputable def sumSqDiff (a b : List ℝ) : ℝ :=
  ((a.zip b).map fun xy => (xy.1 - xy.2) ^ 2).sum

/-- Embedding of `_euclidean`. -/
noncomputable def euclidean (a b : List ℝ) : ℝ :=
  Real.sqrt (sumSqDiff a b)

/-- Embedding of `min(range(k), key=f)`: the first index of `range k`
attaining the minimum. -/
noncomputable def argminKey (f : ℕ → ℝ) (k : ℕ) : ℕ :=
  (List.range k).foldl (fun best c => if f c < f best then c else best) 0

/-- Embedding of `zip(*cluster)` (transpose truncating to the shortest row). -/
def zipStar : List (List ℝ) → List (List ℝ)
  | [] => []
  | [a] => a.map fun x => [x]
  | a :: b :: rest => (a.zip (zipStar (b :: rest))).map fun p => p.1 :: p.2

/-- One iteration of the `_kmeans_fallback` loop: reassign every vector to its
nearest center, then move every non-empty cluster center to the cluster mean. -/
noncomputable def kmeansStep (vectors : List (List ℝ)) (k : ℕ)
    (st : List ℕ × List (List ℝ)) : List ℕ × List (List ℝ) :=
  let centers := st.2
  let labels := vectors.map fun v => argminKey (fun c => euclidean v (centers.getD c [])) k
  let centers₁ := (List.range k).foldl
    (fun cs c =>
      let cluster := ((vectors.zip labels).filter fun vl => vl.2 = c).map Prod.fst
      if cluster.isEmpty then cs
      else cs.set c ((zipStar cluster).map fun vals => vals.sum / (cluster.length : ℝ)))
    centers
  (labels, centers₁)

/-- Embedding of `_kmeans_fallback`; `sample` is the ambient result of the
unseeded `random.sample(vectors, k)` (default `iterations = 10` is passed
explicitly). -/
noncomputable def kmeans_fallback (vectors : List (List ℝ)) (k : ℕ)
    (sample : List (List ℝ)) (iterations : ℕ) : List ℕ :=
  if vectors.isEmpty then []
  else
    let centers₀ := if k ≤ vectors.length then sample
      else List.replicate k (vectors.getD 0 [])
    ((kmeansStep vectors k)^[iterations] (List.replicate vectors.length 0, centers₀)).1

/-- Admissible results of `random.sample(vectors, k)`: any permutation of any
selection of `k` distinct positions of `vectors`. -/
def isSample (sample vectors : List (List ℝ)) (k : ℕ) : Prop :=
  sample.length = k ∧ ∃ sub : List (List ℝ), sub.Sublist vectors ∧ sample.Perm sub

/-- Embedding of `_choose_k`; `skChooseK` is the oracle of the
`try: sklearn ...` block (`none` selects the `except` branch `min(3, n)`). -/
def choose_k (skChooseK : List (List ℝ) → Option ℕ) (vectors : List (List ℝ)) : ℕ :=
  let n := vectors.length
  if n ≤ 2 then max 1 n
  else
    match skChooseK vectors with
    | some k => k
    | none => min 3 n

/-- Embedding of `", ".join` on a key list. -/
def joinComma (l : List String) : String :=
  String.intercalate ", " l

/-- Embedding of `cluster_scenarios_with_labels`. -/
noncomputable def cluster_scenarios_with_labels (env : ClusterEnv) (games : List GameRecord) :
    List ScenarioCard × List Int × List (Int × List GameRecord) :=
  if games.isEmpty then ([], [], [])
  else
    let vectors := games.map fun g => game_vector env.hash g 32
    let k := choose_k env.skChooseK vectors
    let labels : List Int :=
      if k = 1 then List.replicate vectors.length 0
      else
        match env.skLabels vectors k with
        | some ls => ls
        | none => (kmeans_fallback vectors k (env.sampleCenters vectors k) 10).map Int.ofNat
    let clusters := (games.zip labels).foldl
      (fun cl gl => dictUpd cl gl.2 fun o => o.getD [] ++ [gl.1]) []
    let total_games := games.length
    let cards := clusters.filterMap fun ccl =>
      let cluster_games := ccl.2
      if cluster_games.isEmpty then none
      else
        let winrate := ((cluster_games.filter fun g => g.opponent.won = some true).length : ℝ) /
          (cluster_games.length : ℝ)
        let rcc := cluster_games.foldl
          (fun (rc : List (String × List (String × ℕ)) × List (String × ℕ)) g =>
            g.opponent.players.foldl
              (fun rc p =>
                let rc1 := if strTruthy p.role ∧ strTruthy p.character then
                    dictUpd rc.1 (pyStrOrEmpty p.role) fun o =>
                      dictUpd (o.getD []) (pyStrOrEmpty p.character) fun n => n.getD 0 + 1
                  else rc.1
                let rc2 := if strTruthy p.character then
                    dictUpd rc.2 (pyStrOrEmpty p.character) fun n => n.getD 0 + 1
                  else rc.2
                (rc1, rc2))
              rc)
          ([], [])
        let role_counts := rcc.1
        let champ_counts := rcc.2
        let signature := role_counts.filterMap fun rcnt =>
          if rcnt.2.isEmpty then none
          else
            some (rcnt.1,
              ((rcnt.2.mergeSort fun a b => decide (b.2 ≤ a.2)).headD ("", 0)).1)
        let volatility := pyEntropy (champ_counts.map fun cv => (cv.1, (cv.2 : ℝ)))
        let punish := if ¬ champ_counts.isEmpty then
            "ban " ++ joinComma ((dictKeys champ_counts).take 2)
          else "deny comfort picks"
        some
          ({ scenario_id := ccl.1
             share := (cluster_games.length : ℝ) / (total_games : ℝ)
             winrate := winrate
             signature_picks := signature
             volatility := volatility
             punish_plan := punish } : ScenarioCard)
    let cards_sorted := cards.mergeSort fun a b => decide (b.share ≤ a.share)
    (cards_sorted, labels, clusters)

/-- Embedding of `cluster_scenarios`. -/
noncomputable def cluster_scenarios (env : ClusterEnv) (games : List GameRecord) :
    List ScenarioCard :=
  (cluster_scenarios_with_labels env games).1

/-! ## randomness.py: entropy-based opponent randomness score -/

/-- Embedding of `_distribution_from_games` (integer counts rendered as
floats). -/
def distribution_from_games (games : List GameRecord) : List (String × ℝ) :=
  let counts := games.foldl
    (fun counts g =>
      g.opponent.players.foldl
        (fun counts p =>
          if strTruthy p.character then
            dictUpd counts (pyStrOrEmpty p.character) fun o => o.getD 0 + 1
          else counts)
        counts)
    ([] : List (String × ℕ))
  counts.map fun cv => (cv.1, (cv.2 : ℝ))

/-- Embedding of `_normalize` on the value list of the dict. -/
noncomputable def pyNormalizeVals (vs : List ℝ) : List ℝ :=
  let total := vs.sum
  if total ≤ 0 then vs.map fun _ => 0 else vs.map fun v => v / total

/-- One summand of the inner `kl` helper of `_js_divergence`. -/
noncomputable def klTerm (a b : ℝ) : ℝ :=
  if 0 < a ∧ 0 < b then a * Real.logb 2 (a / b) else 0

/-- Embedding of the inner `kl` helper on parallel value lists. -/
noncomputable def klSum (a b : List ℝ) : ℝ :=
  ((a.zip b).map fun p => klTerm p.1 p.2).sum

/-- Embedding of `_js_divergence`; the key set is the dedup union (set
iteration order permutes the sums only). -/
noncomputable def js_divergence (p q : List (String × ℝ)) : ℝ :=
  let keys := (dictKeys p ++ dictKeys q).dedup
  let pv := keys.map fun k => (dictGet? p k).getD 0
  let qv := keys.map fun k => (dictGet? q k).getD 0
  let p_norm := pyNormalizeVals pv
  let q_norm := pyNormalizeVals qv
  let m := (p_norm.zip q_norm).map fun ab => 0.5 * (ab.1 + ab.2)
  0.5 * (klSum p_norm m + klSum q_norm m)

/-- Embedding of `_sorted_by_time` (stable ascending sort on the raw
`start_time` string). -/
def sorted_by_time (games : List GameRecord) : List GameRecord :=
  games.mergeSort fun a b => decide (a.start_time ≤ b.start_time)

/-- Result of `compute_randomness`. -/
structure Randomness : Type where
  draft_entropy : ℝ
  player_entropy : ℝ
  scenario_entropy : ℝ
  drift : ℝ
  score : ℝ
  interpretation : String
  advice : String

/-- Embedding of `compute_randomness`; clustering ambients are passed through
`env`. The split index `int(len(ordered) * 0.75)` is `3n/4` rounded toward
zero (`0.75` and the product are exact binary floats in range). -/
noncomputable def compute_randomness (env : ClusterEnv) (games : List GameRecord) :
    Randomness :=
  if games.isEmpty then
    { draft_entropy := 0
      player_entropy := 0
      scenario_entropy := 0
      drift := 0
      score := 0
      interpretation := "no data"
      advice := "collect more games" }
  else
    let team_dist := distribution_from_games games
    let draft_entropy := pyEntropy team_dist
    let per_player := games.foldl
      (fun pp g =>
        g.opponent.players.foldl
          (fun pp p =>
            if p.player_id ≠ "" ∧ strTruthy p.character then
              dictUpd pp p.player_id fun old =>
                dictUpd (old.getD []) (pyStrOrEmpty p.character) fun o => o.getD 0 + 1
            else pp)
          pp)
      ([] : List (String × List (String × ℕ)))
    let player_entropies := (dictVals per_player).map fun counts =>
      pyEntropy (counts.map fun cv => (cv.1, (cv.2 : ℝ)))
    let player_entropy := if ¬ player_entropies.isEmpty then
        player_entropies.sum / (player_entropies.length : ℝ)
      else 0
    let scenarios := cluster_scenarios env games
    let scenario_dist := scenarios.foldl
      (fun d s => dictUpd d (toString s.scenario_id) fun _ => s.share) []
    let scenario_entropy := pyEntropy scenario_dist
    let ordered := sorted_by_time games
    let split := max 1 (3 * ordered.length / 4)
    let prev_games := ordered.take split
    let recent_games := ordered.drop split
    let drift := js_divergence (distribution_from_games prev_games)
      (distribution_from_games recent_games)
    let score : ℝ := 100 *
      (0.35 * draft_entropy + 0.25 * player_entropy + 0.25 * scenario_entropy + 0.15 * drift)
    let ia : String × String :=
      if score < 35 then
        ("highly predictable", "target-ban top comfort picks and prep 1-2 compositions")
      else if score < 65 then
        ("moderately flexible", "ban 1-2 priority picks and prepare adaptive drafts")
      else
        ("chaotic", "prep principles and flexible answers; prioritize comfort denial")
    { draft_entropy := draft_entropy
      player_entropy := player_entropy
      scenario_entropy := scenario_entropy
      drift := drift
      score := score
      interpretation := ia.1
      advice := ia.2 }

/-! ## report.py: report assembly -/

/-- Embedding of `grid_ingest.FetchMeta`. -/
structure FetchMeta : Type where
  team_name : String
  opponent_name : String
  team_id : String
  opponent_id : String
  title : String
  window_gte : String
  window_lte : String
  series_found : ℕ
  series_analyzed : ℕ
deriving DecidableEq, Repr

/-- Deduplication keeping first occurrences, as `list(dict.fromkeys(...))`. -/
def pyDedup {α : Type} [DecidableEq α] : List α → List α
  | [] => []
  | x :: rest => x :: pyDedup (rest.filter fun y => y ≠ x)
termination_by l => l.length
decreasing_by
  simp only [List.length_cons]
  exact Nat.lt_succ_of_le (List.length_filter_le _ _)

/-- Result of `_build_plan_template`. -/
structure Plan : Type where
  ban_plan : List String
  draft_plan : String

/-- Embedding of `_build_plan_template`. -/
noncomputable def build_plan_template (per_player : List (String × PerPlayerEntry))
    (draft : DraftTendencies) (randomness : Randomness) : Plan :=
  let priority := (draft.priority_picks.map fun p => p.character).filter fun c => c ≠ ""
  let ban_core := priority.take 3
  let comfort_bans := per_player.filterMap fun pe =>
    match pe.2.comfort_picks with
    | [] => none
    | first :: _ => if 0.5 ≤ first.share then some first.character else none
  let ban_list := ((ban_core ++ comfort_bans).filter fun c => c ≠ "")
  let ban_list := (pyDedup ban_list).take 5
  let draft_plan₀ := "Draft for flexibility; keep answers ready for " ++
    joinComma (priority.take 5) ++
    ". Focus on denying engage supports and stable jungle picks if available."
  let draft_plan := if randomness.interpretation = "chaotic" then
      draft_plan₀ ++ " Expect multiple styles; prioritize adaptable comps over single hard reads."
    else draft_plan₀
  { ban_plan := ban_list
    draft_plan := draft_plan }

/-- Python `min` over a nonempty float list. -/
noncomputable def pyMinList (l : List ℝ) : ℝ :=
  l.foldl min (l.headD 0)

/-- Python `max` over a nonempty float list. -/
noncomputable def pyMaxList (l : List ℝ) : ℝ :=
  l.foldl max (l.headD 0)

/-- Embedding of `_normalize_axis`. -/
noncomputable def normalize_axis (values : List ℝ) : List ℝ :=
  if values.isEmpty then []
  else
    let vmin := pyMinList values
    let vmax := pyMaxList values
    if vmax = vmin then values.map fun _ => 0.5
    else values.map fun v => (v - vmin) / (vmax - vmin)

/-- Radar-chart fingerprint of one strategy cluster; the Python key `macro`
(always `None`) is embedded as the field `m_axis` because its source name is a
reserved word here. -/
structure Fingerprint : Type where
  early_aggression : ℝ
  draft_volatility : ℝ
  teamfightiness : ℝ
  m_axis : Option ℝ

/-- Strategy-cluster item before the fingerprint pass; the Python key
`macro_raw` (always `None`) is embedded as `m_raw`, see `Fingerprint`. -/
structure VizBase : Type where
  scenario_id : Int
  games : ℕ
  winrate : ℝ
  pick_buckets : List (String × ℝ)
  top_picks : List String
  early_aggression_raw : ℝ
  teamfightiness_raw : ℝ
  draft_volatility_raw : ℝ
  m_raw : Option ℝ

/-- Strategy-cluster item of `_build_scenario_viz`. -/
structure VizItem : Type where
  base : VizBase
  fingerprint : Fingerprint

/-- Embedding of `_build_scenario_viz`. -/
noncomputable def build_scenario_viz (clusters : List (Int × List GameRecord)) :
    List VizItem :=
  let items := clusters.filterMap fun ccl =>
    let games := ccl.2
    if games.isEmpty then none
    else
      let total := games.length
      let wins := (games.filter fun g => g.opponent.won = some true).length
      let st := games.foldl
        (fun (st : List (String × ℕ) × List (String × ℕ) × Int × Int) g =>
          let inner := g.opponent.players.foldl
            (fun (st : List (String × ℕ) × List (String × ℕ)) p =>
              let cc := if strTruthy p.character then
                  dictUpd st.1 (pyStrOrEmpty p.character) fun o => o.getD 0 + 1
                else st.1
              let rc := if strTruthy p.role then
                  dictUpd st.2 (pyStrOrEmpty p.role) fun o => o.getD 0 + 1
                else st.2
              (cc, rc))
            (st.1, st.2.1)
          (inner.1, inner.2, st.2.2.1 + g.opponent.kills, st.2.2.2 + g.opponent.deaths))
        ([], [], 0, 0)
      let champ_counts := st.1
      let role_counts := st.2.1
      let kills := st.2.2.1
      let deaths := st.2.2.2
      let total_picks := if (dictVals role_counts).sum ≠ 0 then (dictVals role_counts).sum else 1
      let pick_buckets := role_counts.map fun rv => (rv.1, (rv.2 : ℝ) / (total_picks : ℝ))
      let top_picks := ((champ_counts.mergeSort fun a b => decide (b.2 ≤ a.2)).take 5).map
        Prod.fst
      some
        ({ scenario_id := ccl.1
           games := total
           winrate := (wins : ℝ) / (total : ℝ)
           pick_buckets := pick_buckets
           top_picks := top_picks
           early_aggression_raw := (kills : ℝ) / (total : ℝ)
           teamfightiness_raw := ((kills : ℝ) + (deaths : ℝ)) / (total : ℝ)
           draft_volatility_raw := pyEntropy (champ_counts.map fun cv => (cv.1, (cv.2 : ℝ)))
           m_raw := none } : VizBase)
  let early_vals := normalize_axis (items.map fun i => i.early_aggression_raw)
  let fight_vals := normalize_axis (items.map fun i => i.teamfightiness_raw)
  let vol_vals := normalize_axis (items.map fun i => i.draft_volatility_raw)
  (items.zip (List.range items.length)).map fun ii =>
    { base := ii.1
      fingerprint :=
        { early_aggression := early_vals.getD ii.2 0
          draft_volatility := vol_vals.getD ii.2 0
          teamfightiness := fight_vals.getD ii.2 0
          m_axis := none } }

/-- Cell of the counter matrix. -/
structure MatrixCell : Type where
  winrate : Option ℚ
  samples : ℕ
  confidence : ℚ
deriving DecidableEq, Repr

/-- Per-role block of the counter matrix. -/
structure MatrixRole : Type where
  rows : List String
  cols : List String
  cells : List (List MatrixCell)
deriving DecidableEq, Repr

/-- Embedding of `_build_counter_matrix` (defaults `max_rows = max_cols = 6`
are passed explicitly). -/
noncomputable def build_counter_matrix (matchup_table : List (MatchupKey × MatchupStats))
    (per_player : List (String × PerPlayerEntry))
    (our_pools : List (String × List (String × ℝ))) (max_rows max_cols : ℕ) :
    List (String × MatrixRole) :=
  let role_rows := per_player.foldl
    (fun rr pe =>
      let p := pe.2
      let picks := p.comfort_picks
      if ¬ strTruthy p.role ∨ picks.isEmpty then rr
      else
        match p.role with
        | none => rr
        | some role =>
          let rr := if dictHas rr role then rr else rr ++ [(role, ([] : List String))]
          picks.foldl
            (fun rr pick =>
              if pick.character ≠ "" then
                dictUpd rr role fun o => o.getD [] ++ [pick.character]
              else rr)
            rr)
    []
  let global_pool := our_pools.foldl
    (fun gp pe => pe.2.foldl (fun gp cw => dictUpd gp cw.1 fun o => o.getD 0 + cw.2) gp) []
  let cols := ((global_pool.mergeSort fun a b => decide (b.2 ≤ a.2)).take max_cols).map Prod.fst
  role_rows.map fun rr =>
    let role := rr.1
    let row_list := (pyDedup rr.2).take max_rows
    let cells := row_list.map fun r =>
      cols.map fun c =>
        match dictGet? matchup_table (role, c, r) with
        | some stats =>
          ({ winrate := some (stats.posterior_winrate 2 2)
             samples := stats.games
             confidence := stats.confidence } : MatrixCell)
        | none => ({ winrate := none, samples := 0, confidence := 0 } : MatrixCell)
    (role, ({ rows := row_list, cols := cols, cells := cells } : MatrixRole))

/-- Best answer of a decision-tree node. -/
structure TreeAnswer : Type where
  our_pick : String
  winrate : ℚ
  samples : ℕ
  confidence : ℚ
deriving DecidableEq, Repr

/-- Node of `_build_decision_tree`. -/
structure TreeNode : Type where
  role : String
  opponent_pick : String
  answer : Option TreeAnswer
  follow_up_ban : Option String
deriving DecidableEq, Repr

/-- Embedding of `_build_decision_tree`. -/
def build_decision_tree (counter_matrix : List (String × MatrixRole))
    (draft : DraftTendencies) : List TreeNode :=
  let priority := (draft.priority_picks.map fun p => p.character).filter fun c => c ≠ ""
  counter_matrix.flatMap fun rm =>
    let role := rm.1
    let rows := rm.2.rows
    let cols := rm.2.cols
    let cells := rm.2.cells
    ((rows.take 3).zip (List.range (rows.take 3).length)).map fun ri =>
      let opp_pick := ri.1
      let r_idx := ri.2
      let best := (cols.zip (List.range cols.length)).foldl
        (fun (best : ℚ × Option TreeAnswer) ci =>
          let cell := (cells.getD r_idx []).getD ci.2 ⟨none, 0, 0⟩
          match cell.winrate with
          | none => best
          | some w =>
            let score := w * cell.confidence
            if best.1 < score then
              (score, some ⟨ci.1, w, cell.samples, cell.confidence⟩)
            else best)
        (-1, none)
      let follow_up := priority.find? fun p => p ≠ opp_pick
      { role := role
        opponent_pick := opp_pick
        answer := best.2
        follow_up_ban := follow_up }

/-- The `stable_champions` insight block. -/
structure StableChampions : Type where
  opponent : List ChampRow
  team : List ChampRow
deriving DecidableEq, Repr

/-- The `roster_stability` insight block. -/
structure RosterBlock : Type where
  opponent : RosterStability
  team : RosterStability
deriving DecidableEq, Repr

/-- The `signature_clusters` insight block. -/
structure SigBlock : Type where
  opponent : SigClusters
  team : SigClusters

/-- The `player_similarity` insight block. -/
structure PlayerSimBlock : Type where
  opponent : PlayerSim
  team : PlayerSim
deriving DecidableEq, Repr

/-- The `stable_overlap` insight block. -/
structure StableOverlap : Type where
  shared_champions : List String
  count : ℕ
deriving DecidableEq, Repr

/-- The `insights` section of the report. -/
structure Insights : Type where
  stable_champions : StableChampions
  roster_stability : RosterBlock
  style_triangle : StyleTriangle
  draft_dna_opponent : DraftDna
  counterfactual_bans : List CfBan
  signature_clusters : SigBlock
  player_similarity : PlayerSimBlock
  stable_overlap : StableOverlap

/-- The constant `objective_timeline` block. -/
structure ObjectiveTimeline : Type where
  first_dragon : List ℝ
  first_herald : List ℝ
  first_tower : List ℝ
  kills_by_minute : List ℝ
  missing : Bool

/-- The `visualization` section of the report. -/
structure Visualization : Type where
  strategy_clusters : List VizItem
  scenario_fingerprint_axes : List String
  objective_timeline : ObjectiveTimeline
  counter_matrix : List (String × MatrixRole)
  decision_tree : List TreeNode

/-- The `missing_data` section of the report. -/
structure MissingData : Type where
  bans : Bool
  objectives : Bool
deriving DecidableEq, Repr

/-- The full report returned by `build_report`; presence of every top-level
key with a typed value is the totality of `build_report` at this type. -/
structure Report : Type where
  meta : FetchMeta
  data_coverage : DataCoverage
  opponent_overview : MatchOutcomes
  per_player : List (String × PerPlayerEntry)
  draft_tendencies : DraftTendencies
  scenarios : List ScenarioCard
  counters : Counters
  randomness : Randomness
  plan : Plan
  insights : Insights
  visualization : Visualization
  missing_data : MissingData

/-- Embedding of `build_report`; `recencyWeight` and `env`/`skSignature` carry
the ambient wall clock, hash salt, sklearn availability and `random.sample`
draws of the helpers. -/
noncomputable def build_report (recencyWeight : String → ℝ) (env : ClusterEnv)
    (skSignature : List (List ℝ) → ℕ → Option (List Int × ℕ))
    (games : List GameRecord) (meta : FetchMeta)
    (our_pools? : Option (List (String × List (String × ℝ)))) : Report :=
  let outcomes := compute_match_outcomes games
  let per_player_t := compute_per_player_tendencies recencyWeight games
  let draft := compute_team_draft_tendencies recencyWeight games
  let coverage := compute_data_coverage games
  let swl := cluster_scenarios_with_labels env games
  let scenarios := swl.1
  let clusters := swl.2.2
  let randomness := compute_randomness env games
  let matchup_table := build_matchup_table games
  let our_pools := match our_pools? with
    | none => compute_our_pick_pools recencyWeight games
    | some pools => pools
  let counters := suggest_counters matchup_table per_player_t.per_player (some our_pools) 3
  let plan := build_plan_template per_player_t.per_player draft randomness
  let scenario_viz := build_scenario_viz clusters
  let counter_matrix := build_counter_matrix matchup_table per_player_t.per_player our_pools 6 6
  let decision_tree := build_decision_tree counter_matrix draft
  let stable_opponent := compute_champion_winrates games "opponent" 3
  let stable_team := compute_champion_winrates games "team" 3
  let roster_opponent := compute_roster_stability games "opponent"
  let roster_team := compute_roster_stability games "team"
  let style_triangle := compute_style_triangle games
  let draft_dna_opponent := compute_draft_dna_summary games "opponent" 50 (3 / 4)
  let counterfactual_bans := compute_counterfactual_bans games "opponent" 3
  let signature_opponent := compute_signature_cluster_cards skSignature games "opponent" 50 4
  let signature_team := compute_signature_cluster_cards skSignature games "team" 50 4
  let player_similarity_opponent := compute_player_similarity games "opponent" 3 30
  let player_similarity_team := compute_player_similarity games "team" 3 30
  let stable_opp_chars := (stable_opponent.filter fun c => c.stable).map fun c => c.character
  let stable_team_chars := (stable_team.filter fun c => c.stable).map fun c => c.character
  let stable_overlap := ((pyDedup stable_opp_chars).filter fun c =>
    stable_team_chars.contains c).mergeSort fun a b => decide (a ≤ b)
  { meta := meta
    data_coverage := coverage
    opponent_overview := outcomes
    per_player := per_player_t.per_player
    draft_tendencies := draft
    scenarios := scenarios
    counters := counters
    randomness := randomness
    plan := plan
    insights :=
      { stable_champions :=
          { opponent := stable_opponent.filter fun c => c.stable
            team := stable_team.filter fun c => c.stable }
        roster_stability := { opponent := roster_opponent, team := roster_team }
        style_triangle := style_triangle
        draft_dna_opponent := draft_dna_opponent
        counterfactual_bans := counterfactual_bans
        signature_clusters := { opponent := signature_opponent, team := signature_team }
        player_similarity :=
          { opponent := player_similarity_opponent, team := player_similarity_team }
        stable_overlap :=
          { shared_champions := stable_overlap, count := stable_overlap.length } }
    visualization :=
      { strategy_clusters := scenario_viz
        scenario_fingerprint_axes :=
          ["early_aggression", "draft_volatility", "teamfightiness", "macro"]
        objective_timeline :=
          { first_dragon := []
            first_herald := []
            first_tower := []
            kills_by_minute := []
            missing := true }
        counter_matrix := counter_matrix
        decision_tree := decision_tree }
    missing_data :=
      { bans := draft.missing_bans
        objectives := ¬ coverage.has_objectives } }

/-! ## Specification-side definitions used to state the claims -/

/-- Specification reading of the first-seen pick of a role: the character of
the first player listed with that (truthy) role and a truthy character. -/
def firstRolePick (players : List PlayerPerf) (r : String) : Option String :=
  if r = "" then none
  else
    (players.find? fun p => decide (p.role = some r) && strTruthy p.character).map fun p =>
      pyStrOrEmpty p.character

/-- Number of games in which both sides have the given first-seen picks in the
given role. -/
def matchupGamesCount (games : List GameRecord) (r a b : String) : ℕ :=
  (games.filter fun g =>
    firstRolePick g.team.players r = some a ∧ firstRolePick g.opponent.players r = some b).length

/-- Number of such games that the requesting team won. -/
def matchupWinsCount (games : List GameRecord) (r a b : String) : ℕ :=
  (games.filter fun g =>
    firstRolePick g.team.players r = some a ∧ firstRolePick g.opponent.players r = some b ∧
      g.team.won = some true).length

/-- Stats stored in the matchup table at a key, defaulting to zero counters
(the `defaultdict` view of the table). -/
def statsAt (table : List (MatchupKey × MatchupStats)) (key : MatchupKey) : MatchupStats :=
  (dictGet? table key).getD ⟨0, 0⟩

/-- Contribution of one role entry of the team-side role index to the counter
at `key`, as a `(games, wins)` pair. -/
def matchupContrib (won : Option Bool) (opp_by_role : List (String × PlayerPerf))
    (key : MatchupKey) (e : String × PlayerPerf) : ℕ × ℕ :=
  match dictGet? opp_by_role e.1 with
  | none => (0, 0)
  | some their_player =>
    let ourC := pyStrOrEmpty e.2.character
    let theirC := pyStrOrEmpty their_player.character
    if ourC = "" ∨ theirC = "" then (0, 0)
    else if (e.1, ourC, theirC) = key then (1, if won = some true then 1 else 0) else (0, 0)

/-- Pick occurrences (per player, per game) on a side, in every game. -/
def pickedOccs (games : List GameRecord) (side : String) : List String :=
  games.flatMap fun g =>
    ((sideState g side).players.filter fun p => strTruthy p.character).map fun p =>
      pyStrOrEmpty p.character

/-- Pick occurrences (per player, per game) on a side, restricted to games
whose result on that side is known. -/
def pickedOccsKnown (games : List GameRecord) (side : String) : List String :=
  games.flatMap fun g =>
    let st := sideState g side
    if st.won = none then []
    else (st.players.filter fun p => strTruthy p.character).map fun p => pyStrOrEmpty p.character

/-- Pick occurrences on a side in games that side won. -/
def pickedOccsWin (games : List GameRecord) (side : String) : List String :=
  games.flatMap fun g =>
    let st := sideState g side
    if st.won = some true then
      (st.players.filter fun p => strTruthy p.character).map fun p => pyStrOrEmpty p.character
    else []

/-- Truthy player ids appearing in one game on a side. -/
def playedIds (g : GameRecord) (side : String) : List String :=
  ((sideState g side).players.filter fun p => p.player_id ≠ "").map fun p => p.player_id

/-- Truthy player ids appearing anywhere in the game list on a side. -/
def allPlayedIds (games : List GameRecord) (side : String) : List String :=
  games.flatMap fun g => playedIds g side

/-- Non-negativity of an optional raw integer (absent values are vacuously
fine). -/
def optNonneg (o : Option Int) : Prop :=
  match o with
  | none => True
  | some v => 0 ≤ v

instance (o : Option Int) : Decidable (optNonneg o) := by
  unfold optNonneg
  cases o <;> infer_instance

/-- Non-negativity of the integer payload of a raw player dict. -/
def rawPlayerNonneg (p : RawPlayer) : Prop :=
  optNonneg p.kills ∧ optNonneg p.deaths

instance (p : RawPlayer) : Decidable (rawPlayerNonneg p) := by
  unfold rawPlayerNonneg
  infer_instance

/-- Non-negativity of the integer payload of a raw team entry. -/
def rawEntryNonneg (t : RawTeamEntry) : Prop :=
  optNonneg t.kills ∧ optNonneg t.deaths ∧ ∀ p ∈ t.players, rawPlayerNonneg p

instance (t : RawTeamEntry) : Decidable (rawEntryNonneg t) := by
  unfold rawEntryNonneg
  infer_instance

/-- Non-negativity of the integer payload of a raw series record. -/
def rawRecordNonneg (r : RawSeriesRecord) : Prop :=
  match r.series_state with
  | none => True
  | some st =>
    (∀ g ∈ st.games, ∀ t ∈ g.teams, rawEntryNonneg t) ∧ ∀ t ∈ st.teams, rawEntryNonneg t

instance (r : RawSeriesRecord) : Decidable (rawRecordNonneg r) := by
  unfold rawRecordNonneg
  cases r.series_state <;> infer_instance

/-- Non-negativity of every kill/death count in a normalized game record. -/
def gameNonneg (g : GameRecord) : Prop :=
  0 ≤ g.team.kills ∧ 0 ≤ g.team.deaths ∧ 0 ≤ g.opponent.kills ∧ 0 ≤ g.opponent.deaths ∧
    (∀ p ∈ g.team.players, 0 ≤ p.kills ∧ 0 ≤ p.deaths) ∧
    ∀ p ∈ g.opponent.players, 0 ≤ p.kills ∧ 0 ≤ p.deaths

instance (g : GameRecord) : Decidable (gameNonneg g) := by
  unfold gameNonneg
  infer_instance

/-! ## Concrete sample inputs for counterexamples and witnesses -/

/-- Roster player with the given id. -/
def rosterPlayer (pid : String) : PlayerPerf :=
  { player_id := pid, name := none, role := some "top", character := some "Gnar",
    kills := 0, deaths := 0 }

/-- Team state with no players. -/
def emptyTeamState (tid : String) : TeamGameState :=
  { team_id := tid, won := none, score := none, kills := 0, deaths := 0, players := [] }

/-- One game whose opponent side fields five distinct players. -/
def rosterGame5 : GameRecord :=
  { series_id := "s"
    game_number := 1
    start_time := "2025-12-01T12:00:00Z"
    tournament := ([] : Tournament)
    team := emptyTeamState "teamA"
    opponent :=
      { team_id := "teamB", won := some false, score := none, kills := 0, deaths := 0,
        players := [rosterPlayer "p1", rosterPlayer "p2", rosterPlayer "p3",
          rosterPlayer "p4", rosterPlayer "p5"] }
    result := "unknown" }

/-- One game with an unknown opponent result and one opponent pick. -/
def unknownResultGame : GameRecord :=
  { series_id := "s"
    game_number := 1
    start_time := "2025-12-01T12:00:00Z"
    tournament := ([] : Tournament)
    team := emptyTeamState "teamA"
    opponent :=
      { team_id := "teamB", won := none, score := none, kills := 5, deaths := 10,
        players := [{ player_id := "p2", name := none, role := some "top",
                      character := some "Gnar", kills := 1, deaths := 2 }] }
    result := "unknown" }

/-- Game in which the requesting team picks Gnar into Ornn on top and wins. -/
def gnarOrnnWin : GameRecord :=
  { series_id := "s"
    game_number := 1
    start_time := "2025-12-01T12:00:00Z"
    tournament := ([] : Tournament)
    team :=
      { team_id := "teamA", won := some true, score := some 1, kills := 10, deaths := 5,
        players := [{ player_id := "p1", name := none, role := some "top",
                      character := some "Gnar", kills := 3, deaths := 1 }] }
    opponent :=
      { team_id := "teamB", won := some false, score := some 0, kills := 5, deaths := 10,
        players := [{ player_id := "p2", name := none, role := some "top",
                      character := some "Ornn", kills := 1, deaths := 3 }] }
    result := "win" }

/-- Player-free game whose opponent kill count separates it from its peers. -/
def scenGame (idx : Int) (kills : Int) : GameRecord :=
  { series_id := "s"
    game_number := idx
    start_time := "2025-12-01T12:00:00Z"
    tournament := ([] : Tournament)
    team := emptyTeamState "teamA"
    opponent :=
      { team_id := "teamB", won := none, score := none, kills := kills, deaths := 0,
        players := [] }
    result := "unknown" }

/-- The three-game clustering input of the determinism counterexample. -/
def scenGames : List GameRecord :=
  [scenGame 1 0, scenGame 2 10, scenGame 3 20]

/-- Clustering environment forcing the in-repo fallback path with the given
`random.sample` draw. -/
def fallbackEnv (sample : List (List ℝ)) : ClusterEnv :=
  { hash := fun _ => 0
    skChooseK := fun _ => none
    skLabels := fun _ _ => none
    sampleCenters := fun _ _ => sample }

/-- Feature vector of a player-free game with the given kill count. -/
noncomputable def scenVec (kills : ℝ) : List ℝ :=
  List.replicate 32 (0 : ℝ) ++ [kills, 0, 0]

/-- Feature vectors of the three clustering games, in game order; also the
first admissible `random.sample` draw. -/
noncomputable def scenSample₁ : List (List ℝ) :=
  [scenVec 0, scenVec 10, scenVec 20]

/-- A second admissible `random.sample` draw: the same three vectors with the
first two in swapped order. -/
noncomputable def scenSample₂ : List (List ℝ) :=
  [scenVec 10, scenVec 0, scenVec 20]

/-- Raw player with a negative kill count. -/
def rawNegPlayer : RawPlayer :=
  { id := some "p1", name := some "Alice", role := some "top", lane := none, position := none
    character := some (.str "Gnar"), champion := none, agent := none
    kills := some (-1), deaths := some 0 }

/-- Raw team entry containing the negative-kills player. -/
def rawNegTeamA : RawTeamEntry :=
  { id := some "teamA", won := some true, score := some 1, kills := some 10, deaths := some 5,
    players := [rawNegPlayer] }

/-- Raw opposing team entry. -/
def rawTeamB : RawTeamEntry :=
  { id := some "teamB", won := some false, score := some 0, kills := some 5, deaths := some 10,
    players := [] }

/-- Raw series record whose only sub-game carries the negative kill count. -/
def rawNegRecord : RawSeriesRecord :=
  { series_id := "series1"
    start_time := "2025-12-01T12:00:00Z"
    tournament := ([] : Tournament)
    series_state := some { games := [{ sequenceNumber := some 1,
                                       teams := [rawNegTeamA, rawTeamB] }], teams := [] } }

/-- Well-formed raw team entry for the round-trip witnesses. -/
def rawTeamA : RawTeamEntry :=
  { id := some "teamA", won := some true, score := some 1, kills := some 10, deaths := some 5,
    players := [] }

/-- Raw series record with an explicit two-game `games` array. -/
def rawTwoGameRecord : RawSeriesRecord :=
  { series_id := "series1"
    start_time := "2025-12-01T12:00:00Z"
    tournament := ([] : Tournament)
    series_state := some
      { games := [{ sequenceNumber := some 1, teams := [rawTeamA, rawTeamB] },
          { sequenceNumber := some 2, teams := [rawTeamA, rawTeamB] }]
        teams := [] } }

/-- Raw series record lacking a `games` array but carrying series-level team
aggregates. -/
def rawAggRecord : RawSeriesRecord :=
  { series_id := "series2"
    start_time := "2025-12-02T12:00:00Z"
    tournament := ([] : Tournament)
    series_state := some { games := [], teams := [rawTeamA, rawTeamB] } }

/-! ## Basic dict and fold lemmas -/

theorem dictGet?_dictUpd_self {K V : Type} [DecidableEq K] (d : List (K × V)) (k : K)
    (f : Option V → V) : dictGet? (dictUpd d k f) k = some (f (dictGet? d k)) := by
  induction d with
  | nil => simp [dictUpd, dictGet?]
  | cons hd tl ih =>
    by_cases h : hd.1 = k
    · simp [dictUpd, dictGet?, h]
    · simp [dictUpd, dictGet?, h, ih]

theorem dictGet?_dictUpd_ne {K V : Type} [DecidableEq K] (d : List (K × V)) (k k' : K)
    (f : Option V → V) (h : k' ≠ k) : dictGet? (dictUpd d k f) k' = dictGet? d k' := by
  induction d with
  | nil => simp [dictUpd, dictGet?, h.symm]
  | cons hd tl ih =>
    by_cases h₁ : hd.1 = k
    · subst h₁
      simp [dictUpd, dictGet?, h.symm]
    · simp only [dictUpd, if_neg h₁]
      by_cases h₂ : hd.1 = k'
      · simp [dictGet?, h₂]
      · simp [dictGet?, h₂, ih]

theorem dictGet?_append {K V : Type} [DecidableEq K] (d₁ d₂ : List (K × V)) (k : K) :
    dictGet? (d₁ ++ d₂) k =
      match dictGet? d₁ k with
      | some v => some v
      | none => dictGet? d₂ k := by
  induction d₁ with
  | nil => simp [dictGet?]
  | cons hd tl ih =>
    by_cases h : hd.1 = k
    · simp [dictGet?, h]
    · simp [dictGet?, h, ih]

theorem foldl_id {α β : Type} (f : α → β → α) (h : ∀ a b, f a b = a) :
    ∀ (l : List β) (a : α), l.foldl f a = a := by
  intro l
  induction l with
  | nil => intro a; rfl
  | cons hd tl ih => intro a; rw [List.foldl_cons, h, ih]

/-! ## C4: Bayesian-smoothed winrate and confidence -/

/-- C4: with `alpha = beta = 2`, `posterior_winrate` equals
`(wins + 2) / (games + 4)`, is exactly `1/2` for zero games, and is strictly
inside `(0, 1)` for every state with `wins ≤ games`; `confidence` equals
`min 1 (games / 20)`. -/
theorem C4_matchup_stats (s : MatchupStats) (h : s.wins ≤ s.games) :
    s.posterior_winrate 2 2 = ((s.wins : ℚ) + 2) / ((s.games : ℚ) + 4) ∧
      (s.games = 0 → s.posterior_winrate 2 2 = 1 / 2) ∧
      0 < s.posterior_winrate 2 2 ∧ s.posterior_winrate 2 2 < 1 ∧
      s.confidence = min 1 ((s.games : ℚ) / 20) := by
  obtain ⟨g, w⟩ := s
  simp only [MatchupStats.posterior_winrate, MatchupStats.confidence] at *
  have hden : (0 : ℚ) < (g : ℚ) + 2 + 2 := by positivity
  refine ⟨?_, ?_, ?_, ?_, ?_⟩
  · rw [show ((g : ℚ) + 2 + 2) = (g : ℚ) + 4 by ring]
  · intro hg
    subst hg
    interval_cases w
    norm_num
  · apply div_pos (by positivity) hden
  · rw [div_lt_one hden]
    have : (w : ℚ) ≤ (g : ℚ) := by exact_mod_cast h
    linarith
  · by_cases hg : g = 0
    · subst hg
      norm_num
    · simp [hg]

/-- Witness for C4 at the state with two games and one win. -/
theorem C4_matchup_stats_witness :
    (⟨2, 1⟩ : MatchupStats).wins ≤ (⟨2, 1⟩ : MatchupStats).games ∧
      ((⟨2, 1⟩ : MatchupStats).posterior_winrate 2 2 =
          (((⟨2, 1⟩ : MatchupStats).wins : ℚ) + 2) / (((⟨2, 1⟩ : MatchupStats).games : ℚ) + 4) ∧
        ((⟨2, 1⟩ : MatchupStats).games = 0 → (⟨2, 1⟩ : MatchupStats).posterior_winrate 2 2 = 1 / 2) ∧
        0 < (⟨2, 1⟩ : MatchupStats).posterior_winrate 2 2 ∧
        (⟨2, 1⟩ : MatchupStats).posterior_winrate 2 2 < 1 ∧
        (⟨2, 1⟩ : MatchupStats).confidence = min 1 (((⟨2, 1⟩ : MatchupStats).games : ℚ) / 20)) :=
  ⟨by decide, C4_matchup_stats ⟨2, 1⟩ (by decide)⟩

/-! ## C10: counter suggestions degrade to empty without pick pools -/

/-- C10: with `our_pools` absent or empty, `suggest_counters` reports
personalization `low` and an empty `by_role` mapping, for every matchup table
and every opponent-players mapping, because the fallback flattened pool holds
no characters. -/
theorem C10_suggest_counters_empty_pools (table : List (MatchupKey × MatchupStats))
    (opp : List (String × PerPlayerEntry))
    (pools : Option (List (String × List (String × ℝ)))) (top_k : ℕ)
    (h : pools = none ∨ pools = some []) :
    suggest_counters table opp pools top_k =
      { personalization_level := "low", by_role := [] } := by
  have hpt : poolsTruthy pools = false := by
    rcases h with rfl | rfl <;> rfl
  simp only [suggest_counters, hpt, Bool.false_eq_true, if_false,
    flatten_pick_rates, List.foldl_cons, List.foldl_nil]
  refine congrArg (Counters.mk _) ?_
  apply foldl_id
  intro rc entry
  by_cases h₁ : ¬ strTruthy entry.2.role ∨ entry.2.comfort_picks.isEmpty
  · exact if_pos h₁
  · rw [if_neg h₁]
    cases hrole : entry.2.role with
    | none => rfl
    | some role =>
      apply foldl_id
      intro rc₁ pick
      by_cases h₂ : pick.character = ""
      · exact if_pos h₂
      · rw [if_neg h₂]
        simp [List.filterMap_nil, List.mergeSort_nil, List.take_nil]

/-- Witness for C10 at absent pools with an empty table and no opponents. -/
theorem C10_suggest_counters_empty_pools_witness :
    ((none : Option (List (String × List (String × ℝ)))) = none ∨
        (none : Option (List (String × List (String × ℝ)))) = some []) ∧
      suggest_counters [] [] none 3 = { personalization_level := "low", by_role := [] } :=
  ⟨Or.inl rfl, C10_suggest_counters_empty_pools [] [] none 3 (Or.inl rfl)⟩

/-! ## C8: kill/death non-negativity through normalization -/

theorem safe_int_nonneg (o : Option Int) (h : optNonneg o) : 0 ≤ safe_int o := by
  cases o with
  | none => simp [safe_int]
  | some v => exact h

theorem team_state_from_entry_nonneg (roleMap : List (String × String)) (t : RawTeamEntry)
    (h : rawEntryNonneg t) :
    0 ≤ (team_state_from_entry roleMap t).kills ∧
      0 ≤ (team_state_from_entry roleMap t).deaths ∧
      ∀ p ∈ (team_state_from_entry roleMap t).players, 0 ≤ p.kills ∧ 0 ≤ p.deaths := by
  obtain ⟨hk, hd, hp⟩ := h
  refine ⟨safe_int_nonneg _ hk, safe_int_nonneg _ hd, ?_⟩
  intro p hp₁
  simp only [team_state_from_entry, normalize_players, List.mem_map] at hp₁
  obtain ⟨raw, hraw, rfl⟩ := hp₁
  obtain ⟨hrk, hrd⟩ := hp raw hraw
  exact ⟨safe_int_nonneg _ hrk, safe_int_nonneg _ hrd⟩

/-- C8 (amended): whenever every raw kill/death value present in the input is
non-negative, every `PlayerPerf` and `TeamGameState` produced by
`normalize_records` has non-negative kill and death counts. The unconditional
claim fails: `_safe_int` passes negative integers through, see the
counterexample. -/
theorem C8_normalize_nonneg (roleMap : List (String × String))
    (records : List RawSeriesRecord) (team_id opponent_id : String)
    (h : ∀ r ∈ records, rawRecordNonneg r) :
    ∀ g ∈ normalize_records roleMap records team_id opponent_id, gameNonneg g := by
  intro g hg
  simp only [normalize_records, List.mem_flatMap] at hg
  obtain ⟨r, hr, hgr⟩ := hg
  have hrn := h r hr
  unfold rawRecordNonneg at hrn
  cases hst : r.series_state with
  | none =>
    rw [hst] at hgr hrn
    simp [dictGet?, List.find?] at hgr
  | some st =>
    rw [hst] at hgr hrn
    simp only [Option.getD_some] at hgr
    obtain ⟨hgames, hteams⟩ := hrn
    by_cases hne : st.games = []
    · rw [if_neg (by simp [hne])] at hgr
      rcases hfind₁ : st.teams.find? fun t => pyStrOfGet t.id = team_id with _ | te <;>
        rw [hfind₁] at hgr
      · cases hgr
      rcases hfind₂ : st.teams.find? fun t => pyStrOfGet t.id = opponent_id with _ | oe <;>
        rw [hfind₂] at hgr
      · cases hgr
      have hte := hteams te (List.mem_of_find?_eq_some hfind₁)
      have hoe := hteams oe (List.mem_of_find?_eq_some hfind₂)
      rw [List.mem_singleton] at hgr
      subst hgr
      obtain ⟨a1, a2, a3⟩ := team_state_from_entry_nonneg roleMap te hte
      obtain ⟨b1, b2, b3⟩ := team_state_from_entry_nonneg roleMap oe hoe
      exact ⟨a1, a2, b1, b2, a3, b3⟩
    · rw [if_pos (by simp [hne])] at hgr
      rw [List.mem_filterMap] at hgr
      obtain ⟨sub, hsub, hsome⟩ := hgr
      rcases hfind₁ : sub.teams.find? fun t => pyStrOfGet t.id = team_id with _ | te <;>
        rw [hfind₁] at hsome
      · cases hsome
      rcases hfind₂ : sub.teams.find? fun t => pyStrOfGet t.id = opponent_id with _ | oe <;>
        rw [hfind₂] at hsome
      · cases hsome
      have hte := hgames sub hsub te (List.mem_of_find?_eq_some hfind₁)
      have hoe := hgames sub hsub oe (List.mem_of_find?_eq_some hfind₂)
      cases hsome
      obtain ⟨a1, a2, a3⟩ := team_state_from_entry_nonneg roleMap te hte
      obtain ⟨b1, b2, b3⟩ := team_state_from_entry_nonneg roleMap oe hoe
      exact ⟨a1, a2, b1, b2, a3, b3⟩

/-- Counterexample to C8 as stated: a raw player with `kills = -1` survives
normalization with a negative kill count. -/
theorem C8_normalize_nonneg_counterexample :
    ¬ ∀ g ∈ normalize_records [] [rawNegRecord] "teamA" "teamB", gameNonneg g := by
  decide

/-- Witness for C8 on a record whose integer payload is non-negative. -/
theorem C8_normalize_nonneg_witness :
    (∀ r ∈ [rawTwoGameRecord], rawRecordNonneg r) ∧
      ∀ g ∈ normalize_records [] [rawTwoGameRecord] "teamA" "teamB", gameNonneg g :=
  ⟨by decide, C8_normalize_nonneg [] [rawTwoGameRecord] "teamA" "teamB" (by decide)⟩

/-! ## C9: round-trip shape of normalization -/

theorem filterMap_map_of_forall_some {α β γ : Type} (f : α → Option β) (h : β → γ)
    (h' : α → γ) (l : List α) (H : ∀ x ∈ l, ∃ y, f x = some y ∧ h y = h' x) :
    (l.filterMap f).map h = l.map h' := by
  induction l with
  | nil => rfl
  | cons hd tl ih =>
    obtain ⟨y, hy, hhy⟩ := H hd (List.mem_cons_self hd tl)
    rw [List.filterMap_cons, hy, List.map_cons, List.map_cons, hhy,
      ih fun x hx => H x (List.mem_cons_of_mem hd hx)]

/-- C9: a raw series with an explicit `games` array, each sub-game carrying
both team entries and a sequence number, normalizes to one `GameRecord` per
sub-game whose `game_number` is that sequence number; a raw series lacking a
`games` array but carrying both series-level team entries normalizes to
exactly one `GameRecord` with `game_number = 0`. -/
theorem C9_normalize_roundtrip (roleMap : List (String × String))
    (team_id opponent_id : String) (r : RawSeriesRecord) (st : RawSeriesState)
    (hst : r.series_state = some st) :
    (st.games ≠ [] →
      (∀ g ∈ st.games,
        (g.teams.find? fun t => pyStrOfGet t.id = team_id).isSome ∧
          (g.teams.find? fun t => pyStrOfGet t.id = opponent_id).isSome ∧
          g.sequenceNumber.isSome) →
      (normalize_records roleMap [r] team_id opponent_id).map (fun g => g.game_number) =
        st.games.map fun g => g.sequenceNumber.getD 0) ∧
    (st.games = [] →
      (st.teams.find? fun t => pyStrOfGet t.id = team_id).isSome →
      (st.teams.find? fun t => pyStrOfGet t.id = opponent_id).isSome →
      (normalize_records roleMap [r] team_id opponent_id).map (fun g => g.game_number) =
        [0]) := by
  constructor
  · intro hne hall
    simp only [normalize_records, List.flatMap_cons, List.flatMap_nil, List.append_nil, hst,
      Option.getD]
    rw [if_pos (by simp [hne])]
    apply filterMap_map_of_forall_some
    intro sub hsub
    obtain ⟨h₁, h₂, h₃⟩ := hall sub hsub
    obtain ⟨te, hte⟩ := Option.isSome_iff_exists.1 h₁
    obtain ⟨oe, hoe⟩ := Option.isSome_iff_exists.1 h₂
    obtain ⟨sq, hsq⟩ := Option.isSome_iff_exists.1 h₃
    rw [hte, hoe]
    exact ⟨_, rfl, by simp [hsq, safe_int]⟩
  · intro hemp h₁ h₂
    simp only [normalize_records, List.flatMap_cons, List.flatMap_nil, List.append_nil, hst,
      Option.getD, hemp]
    rw [if_neg (by simp)]
    obtain ⟨te, hte⟩ := Option.isSome_iff_exists.1 h₁
    obtain ⟨oe, hoe⟩ := Option.isSome_iff_exists.1 h₂
    rw [hte, hoe]
    rfl

/-- Witness for C9 on a two-game record and on an aggregates-only record. -/
theorem C9_normalize_roundtrip_witness :
    ((normalize_records [] [rawTwoGameRecord] "teamA" "teamB").map
        (fun g => g.game_number) = [1, 2]) ∧
      (normalize_records [] [rawAggRecord] "teamA" "teamB").map
        (fun g => g.game_number) = [0] := by
  constructor
  · have h := (C9_normalize_roundtrip [] "teamA" "teamB" rawTwoGameRecord
      { games := [{ sequenceNumber := some 1, teams := [rawTeamA, rawTeamB] },
          { sequenceNumber := some 2, teams := [rawTeamA, rawTeamB] }]
        teams := [] } rfl).1 (by decide) (by decide)
    rw [h]
    rfl
  · exact (C9_normalize_roundtrip [] "teamA" "teamB" rawAggRecord
      { games := [], teams := [rawTeamA, rawTeamB] } rfl).2 rfl (by decide) (by decide)

/-! ## Dict lemmas for counting folds -/

theorem dictGet?_some_mem {K V : Type} [DecidableEq K] {d : List (K × V)} {k : K} {v : V}
    (h : dictGet? d k = some v) : (k, v) ∈ d := by
  induction d with
  | nil => cases h
  | cons hd tl ih =>
    obtain ⟨k₁, v₁⟩ := hd
    simp only [dictGet?] at h
    by_cases h₁ : k₁ = k
    · rw [if_pos h₁] at h
      obtain rfl := Option.some.inj h
      subst h₁
      exact List.mem_cons_self _ _
    · rw [if_neg h₁] at h
      exact List.mem_cons_of_mem _ (ih h)

theorem dictHas_iff_mem_keys {K V : Type} [DecidableEq K] {d : List (K × V)} {k : K} :
    dictHas d k = true ↔ k ∈ dictKeys d := by
  induction d with
  | nil => simp [dictHas, dictGet?, dictKeys]
  | cons hd tl ih =>
    obtain ⟨k₁, v₁⟩ := hd
    by_cases h₁ : k₁ = k
    · subst h₁
      simp [dictHas, dictGet?, dictKeys]
    · have h₂ : dictHas ((k₁, v₁) :: tl) k = dictHas tl k := by
        simp [dictHas, dictGet?, h₁]
      rw [h₂, ih]
      show k ∈ dictKeys tl ↔ k ∈ dictKeys ((k₁, v₁) :: tl)
      rw [show dictKeys ((k₁, v₁) :: tl) = k₁ :: dictKeys tl from rfl, List.mem_cons]
      constructor
      · exact fun h => Or.inr h
      · rintro (h | h)
        · exact absurd h.symm h₁
        · exact h

theorem dictKeys_dictUpd {K V : Type} [DecidableEq K] (d : List (K × V)) (k : K)
    (f : Option V → V) :
    dictKeys (dictUpd d k f) = if dictHas d k then dictKeys d else dictKeys d ++ [k] := by
  induction d with
  | nil => simp [dictUpd, dictKeys, dictHas, dictGet?]
  | cons hd tl ih =>
    obtain ⟨k₁, v₁⟩ := hd
    by_cases h₁ : k₁ = k
    · subst h₁
      simp [dictUpd, dictKeys, dictHas, dictGet?]
    · have h₂ : dictHas ((k₁, v₁) :: tl) k = dictHas tl k := by
        simp [dictHas, dictGet?, h₁]
      rw [show dictUpd ((k₁, v₁) :: tl) k f = (k₁, v₁) :: dictUpd tl k f by
        simp [dictUpd, h₁]]
      rw [show dictKeys ((k₁, v₁) :: dictUpd tl k f) = k₁ :: dictKeys (dictUpd tl k f)
        from rfl]
      rw [ih, h₂]
      by_cases h₃ : dictHas tl k
      · rw [if_pos h₃, if_pos h₃]
        rfl
      · rw [if_neg h₃, if_neg h₃]
        rw [show dictKeys ((k₁, v₁) :: tl) = k₁ :: dictKeys tl from rfl, List.cons_append]

theorem nodup_dictKeys_dictUpd {K V : Type} [DecidableEq K] (d : List (K × V)) (k : K)
    (f : Option V → V) (h : (dictKeys d).Nodup) : (dictKeys (dictUpd d k f)).Nodup := by
  rw [dictKeys_dictUpd]
  by_cases h₁ : dictHas d k
  · rw [if_pos h₁]
    exact h
  · rw [if_neg h₁]
    have h₂ : k ∉ dictKeys d := fun hm => h₁ (dictHas_iff_mem_keys.2 hm)
    simp [List.nodup_append, h, h₂]

theorem dictGet?_eq_of_mem_nodup {K V : Type} [DecidableEq K] {d : List (K × V)} {k : K}
    {v : V} (h : (dictKeys d).Nodup) (hm : (k, v) ∈ d) : dictGet? d k = some v := by
  induction d with
  | nil => cases hm
  | cons hd tl ih =>
    obtain ⟨k₁, v₁⟩ := hd
    rcases List.mem_cons.1 hm with h₂ | h₂
    · obtain ⟨rfl, rfl⟩ := Prod.mk.injEq .. ▸ h₂
      simp [dictGet?]
    · have hk : k ∈ dictKeys tl := List.mem_map_of_mem Prod.fst h₂
      have h₁ : ¬ k₁ = k := fun he => (List.nodup_cons.1 h).1 (he ▸ hk)
      simp only [dictGet?, if_neg h₁]
      exact ih (List.nodup_cons.1 h).2 h₂

theorem countUpd_foldl_get (seen : List String) (pg : List (String × ℕ)) (k : String) :
    dictGet? (seen.foldl countUpd pg) k =
      if k ∈ seen then some ((dictGet? pg k).getD 0 + seen.count k) else dictGet? pg k := by
  induction seen generalizing pg with
  | nil => simp
  | cons pid rest ih =>
    rw [List.foldl_cons, ih]
    by_cases h₁ : k = pid
    · subst h₁
      have hself : dictGet? (countUpd pg k) k = some ((dictGet? pg k).getD 0 + 1) :=
        dictGet?_dictUpd_self pg k _
      by_cases h₂ : k ∈ rest
      · rw [if_pos h₂, if_pos (List.mem_cons_self k rest), hself]
        simp [List.count_cons_self]
        ring
      · rw [if_neg h₂, if_pos (List.mem_cons_self k rest), hself]
        simp [List.count_cons_self, List.count_eq_zero_of_not_mem h₂]
    · have hne : dictGet? (countUpd pg pid) k = dictGet? pg k :=
        dictGet?_dictUpd_ne pg pid k _ h₁
      by_cases h₂ : k ∈ rest
      · rw [if_pos h₂, if_pos (List.mem_cons_of_mem pid h₂), hne]
        simp [List.count_cons_of_ne h₁]
      · rw [if_neg h₂, if_neg (by simp [List.mem_cons, h₁, h₂]), hne]

theorem countUpd_foldl_keys_nodup (seen : List String) (pg : List (String × ℕ))
    (h : (dictKeys pg).Nodup) : (dictKeys (seen.foldl countUpd pg)).Nodup := by
  induction seen generalizing pg with
  | nil => exact h
  | cons pid rest ih =>
    rw [List.foldl_cons]
    exact ih _ (nodup_dictKeys_dictUpd pg pid _ h)

/-! ## Roster-stability fold invariants -/

theorem roster_fold_total (side : String) (games : List GameRecord)
    (st : List (String × ℕ) × ℕ) :
    (games.foldl (rosterStep side) st).2 = st.2 + games.length := by
  induction games generalizing st with
  | nil => simp
  | cons g rest ih =>
    rw [List.foldl_cons, ih]
    simp [rosterStep]
    ring

theorem roster_fold_keys_nodup (side : String) (games : List GameRecord)
    (st : List (String × ℕ) × ℕ) (h : (dictKeys st.1).Nodup) :
    (dictKeys ((games.foldl (rosterStep side) st).1)).Nodup := by
  induction games generalizing st with
  | nil => exact h
  | cons g rest ih =>
    rw [List.foldl_cons]
    exact ih _ (countUpd_foldl_keys_nodup _ _ h)

theorem roster_fold_bound (side : String) (games : List GameRecord)
    (st : List (String × ℕ) × ℕ) (h : ∀ k, ((dictGet? st.1 k).getD 0) ≤ st.2) :
    ∀ k, ((dictGet? ((games.foldl (rosterStep side) st).1) k).getD 0) ≤
      (games.foldl (rosterStep side) st).2 := by
  induction games generalizing st with
  | nil => exact h
  | cons g rest ih =>
    rw [List.foldl_cons]
    apply ih
    intro k
    show ((dictGet? ((rosterSeen g side).foldl countUpd st.1) k).getD 0) ≤ st.2 + 1
    rw [countUpd_foldl_get]
    by_cases h₂ : k ∈ rosterSeen g side
    · rw [if_pos h₂]
      have hc : (rosterSeen g side).count k ≤ 1 :=
        List.nodup_iff_count_le_one.1 (List.nodup_dedup _) k
      have := h k
      simp only [Option.getD_some]
      omega
    · rw [if_neg h₂]
      exact le_trans (h k) (Nat.le_succ _)

theorem roster_fold_full (side : String) (S : List String) (games : List GameRecord)
    (st : List (String × ℕ) × ℕ)
    (hgames : ∀ g ∈ games, ∀ pid, pid ∈ rosterSeen g side ↔ pid ∈ S)
    (hst : ∀ k, dictGet? st.1 k = if k ∈ S ∧ st.2 ≠ 0 then some st.2 else none) :
    ∀ k, dictGet? ((games.foldl (rosterStep side) st).1) k =
      if k ∈ S ∧ (games.foldl (rosterStep side) st).2 ≠ 0 then
        some (games.foldl (rosterStep side) st).2
      else none := by
  induction games generalizing st with
  | nil => exact hst
  | cons g rest ih =>
    rw [List.foldl_cons]
    apply ih
    · intro g₁ hg₁
      exact hgames g₁ (List.mem_cons_of_mem _ hg₁)
    · intro k
      show dictGet? ((rosterSeen g side).foldl countUpd st.1) k =
        if k ∈ S ∧ st.2 + 1 ≠ 0 then some (st.2 + 1) else none
      rw [countUpd_foldl_get]
      by_cases h₂ : k ∈ rosterSeen g side
      · have hkS : k ∈ S := (hgames g (List.mem_cons_self g rest) k).1 h₂
        rw [if_pos h₂, if_pos ⟨hkS, Nat.succ_ne_zero _⟩]
        have hc : (rosterSeen g side).count k = 1 := by
          have h₃ : (rosterSeen g side).count k ≤ 1 :=
            List.nodup_iff_count_le_one.1 (List.nodup_dedup _) k
          have h₄ : 0 < (rosterSeen g side).count k := List.count_pos_iff.2 h₂
          omega
        have hget : ((dictGet? st.1 k).getD 0) = st.2 := by
          rw [hst k]
          by_cases h₅ : st.2 = 0
          · simp [h₅]
          · rw [if_pos ⟨hkS, h₅⟩]
            rfl
        rw [hc, hget]
      · have hkS : k ∉ S := fun hk => h₂ ((hgames g (List.mem_cons_self g rest) k).2 hk)
        rw [if_neg h₂, hst k]
        simp [hkS]

/-! ## C2: roster-stability top-5 share -/

theorem roster_full_share (games : List GameRecord) (side : String)
    (h5 : (compute_roster_stability games side).unique_players ≤ 5)
    (hfull : ∀ g ∈ games, ∀ pid ∈ allPlayedIds games side, pid ∈ playedIds g side) :
    (compute_roster_stability games side).top5_share =
      ((compute_roster_stability games side).unique_players : ℚ) := by
  have hkeys : (dictKeys ((games.foldl (rosterStep side) ([], 0)).1)).Nodup :=
    roster_fold_keys_nodup side games ([], 0) (by simp [dictKeys])
  simp only [compute_roster_stability] at h5 ⊢
  by_cases hemp : games = []
  · subst hemp
    rfl
  · have htot : (games.foldl (rosterStep side) ([], 0)).2 ≠ 0 := by
      rw [roster_fold_total]
      simp [List.length_eq_zero, hemp]
    have hgames : ∀ g ∈ games, ∀ pid,
        pid ∈ rosterSeen g side ↔ pid ∈ allPlayedIds games side := by
      intro g hg pid
      constructor
      · intro hpid
        have : pid ∈ playedIds g side := (List.mem_dedup).1 hpid
        exact List.mem_flatMap.2 ⟨g, hg, this⟩
      · intro hpid
        exact (List.mem_dedup).2 (hfull g hg pid hpid)
    have hfullget := roster_fold_full side (allPlayedIds games side) games ([], 0) hgames
      (by intro k; simp [dictGet?])
    have hvals : ∀ kv ∈ (games.foldl (rosterStep side) ([], 0)).1,
        kv.2 = (games.foldl (rosterStep side) ([], 0)).2 := by
      intro kv hkv
      have hget := dictGet?_eq_of_mem_nodup hkeys (show (kv.1, kv.2) ∈ _ from hkv)
      have h₂ := hfullget kv.1
      rw [hget] at h₂
      by_cases h₃ : kv.1 ∈ allPlayedIds games side ∧
          (games.foldl (rosterStep side) ([], 0)).2 ≠ 0
      · rw [if_pos h₃] at h₂
        exact Option.some.inj h₂
      · rw [if_neg h₃] at h₂
        cases h₂
    rw [if_pos htot]
    set pg := (games.foldl (rosterStep side) ([], 0)).1 with hpg
    set total := (games.foldl (rosterStep side) ([], 0)).2 with htotal
    set sorted := pg.mergeSort fun a b => decide (b.2 ≤ a.2) with hsorted
    have hperm : sorted.Perm pg := List.mergeSort_perm _ _
    have hlen : sorted.length = pg.length := hperm.length_eq
    have htake : sorted.take 5 = sorted := List.take_of_length_le (by omega)
    have hrep : sorted.map Prod.snd = List.replicate (sorted.map Prod.snd).length total := by
      apply List.eq_replicate_of_mem
      intro b hb
      obtain ⟨kv, hkv, rfl⟩ := List.mem_map.1 hb
      exact hvals kv (hperm.mem_iff.1 hkv)
    have hsum : ((sorted.take 5).map Prod.snd).sum = pg.length * total := by
      rw [htake, hrep, List.sum_replicate, smul_eq_mul, List.length_map, hlen]
    rw [hsum]
    push_cast
    rw [mul_div_assoc, div_self (by exact_mod_cast htot), mul_one]

/-- C2 (amended): `top5_share` is non-negative and at most `5` (not at most
`1` as claimed: the per-player game counts of up to five players are each as
large as the game total), is `0` for the empty game list, and equals the
number of distinct players whenever that number is at most five and every
game is played by the full roster. -/
theorem C2_roster_stability (games : List GameRecord) (side : String) :
    0 ≤ (compute_roster_stability games side).top5_share ∧
      (compute_roster_stability games side).top5_share ≤ 5 ∧
      (games = [] → (compute_roster_stability games side).top5_share = 0) ∧
      ((compute_roster_stability games side).unique_players ≤ 5 →
        (∀ g ∈ games, ∀ pid ∈ allPlayedIds games side, pid ∈ playedIds g side) →
        (compute_roster_stability games side).top5_share =
          ((compute_roster_stability games side).unique_players : ℚ)) := by
  have hkeys : (dictKeys ((games.foldl (rosterStep side) ([], 0)).1)).Nodup :=
    roster_fold_keys_nodup side games ([], 0) (by simp [dictKeys])
  have hbound : ∀ kv ∈ (games.foldl (rosterStep side) ([], 0)).1,
      kv.2 ≤ (games.foldl (rosterStep side) ([], 0)).2 := by
    intro kv hkv
    have hget := dictGet?_eq_of_mem_nodup hkeys (show (kv.1, kv.2) ∈ _ from hkv)
    have := roster_fold_bound side games ([], 0) (by simp [dictGet?]) kv.1
    rw [hget] at this
    exact this
  refine ⟨?_, ?_, ?_, roster_full_share games side⟩
  · simp only [compute_roster_stability]
    split
    · positivity
    · exact le_refl 0
  · simp only [compute_roster_stability]
    split
    · next htot =>
      rw [div_le_iff₀ (by positivity)]
      set sorted := ((games.foldl (rosterStep side) ([], 0)).1).mergeSort
        fun a b => decide (b.2 ≤ a.2) with hsorted
      have hperm : sorted.Perm ((games.foldl (rosterStep side) ([], 0)).1) :=
        List.mergeSort_perm _ _
      have hsum : (((sorted.take 5).map Prod.snd).sum : ℕ) ≤
          5 * (games.foldl (rosterStep side) ([], 0)).2 := by
        have h₁ : ∀ x ∈ (sorted.take 5).map Prod.snd,
            x ≤ (games.foldl (rosterStep side) ([], 0)).2 := by
          intro x hx
          obtain ⟨kv, hkv, rfl⟩ := List.mem_map.1 hx
          exact hbound kv (hperm.mem_iff.1 (List.mem_of_mem_take hkv))
        calc (((sorted.take 5).map Prod.snd).sum : ℕ)
            ≤ ((sorted.take 5).map Prod.snd).length *
              (games.foldl (rosterStep side) ([], 0)).2 := by
              have := List.sum_le_card_nsmul ((sorted.take 5).map Prod.snd)
                ((games.foldl (rosterStep side) ([], 0)).2) h₁
              simpa [smul_eq_mul] using this
          _ ≤ 5 * (games.foldl (rosterStep side) ([], 0)).2 := by
              have : ((sorted.take 5).map Prod.snd).length ≤ 5 := by
                rw [List.length_map]
                exact List.length_take_le 5 sorted
              exact Nat.mul_le_mul_right _ this
      calc ((((sorted.take 5).map Prod.snd).sum : ℕ) : ℚ)
          ≤ ((5 * (games.foldl (rosterStep side) ([], 0)).2 : ℕ) : ℚ) := by
            exact_mod_cast hsum
        _ = 5 * (((games.foldl (rosterStep side) ([], 0)).2 : ℕ) : ℚ) := by push_cast; ring
    · exact by norm_num
  · intro hgames
    subst hgames
    rfl

/-- Counterexample to C2 as stated: one game with five distinct players on the
opponent side yields `top5_share = 5`, outside `[0, 1]`. -/
theorem C2_roster_stability_counterexample :
    (compute_roster_stability [rosterGame5] "opponent").top5_share = 5 ∧
      ¬ (compute_roster_stability [rosterGame5] "opponent").top5_share ≤ 1 := by
  have h := roster_full_share [rosterGame5] "opponent" (by decide) (by decide)
  have hu : (compute_roster_stability [rosterGame5] "opponent").unique_players = 5 := by
    decide
  rw [hu] at h
  rw [h]
  norm_num

/-- Witness for C2 at the five-player single game (full roster, five distinct
players, share equal to the distinct-player count). -/
theorem C2_roster_stability_witness :
    ((compute_roster_stability [rosterGame5] "opponent").unique_players ≤ 5 ∧
        ∀ g ∈ [rosterGame5], ∀ pid ∈ allPlayedIds [rosterGame5] "opponent",
          pid ∈ playedIds g "opponent") ∧
      (compute_roster_stability [rosterGame5] "opponent").top5_share =
        ((compute_roster_stability [rosterGame5] "opponent").unique_players : ℚ) :=
  ⟨⟨by decide, by decide⟩,
    (C2_roster_stability [rosterGame5] "opponent").2.2.2 (by decide) (by decide)⟩

/-! ## C7: champion winrate rows -/

theorem cwPlayerStep_fold (won : Option Bool) (players : List PlayerPerf)
    (c w : List (String × ℕ)) :
    players.foldl (cwPlayerStep won) (c, w) =
      (((players.filter fun p => strTruthy p.character).map fun p =>
          pyStrOrEmpty p.character).foldl countUpd c,
        if won = some true then
          ((players.filter fun p => strTruthy p.character).map fun p =>
            pyStrOrEmpty p.character).foldl countUpd w
        else w) := by
  induction players generalizing c w with
  | nil => by_cases hw : won = some true <;> simp [hw]
  | cons p rest ih =>
    by_cases hch : strTruthy p.character
    · rw [List.foldl_cons,
        show cwPlayerStep won (c, w) p =
          (countUpd c (pyStrOrEmpty p.character),
            if won = some true then countUpd w (pyStrOrEmpty p.character) else w) by
          simp [cwPlayerStep, hch],
        ih]
      by_cases hw : won = some true <;> simp [hw, List.filter_cons, hch]
    · rw [List.foldl_cons, show cwPlayerStep won (c, w) p = (c, w) by simp [cwPlayerStep, hch],
        ih]
      simp [List.filter_cons, hch]

theorem cwGameStep_fold (side : String) (games : List GameRecord)
    (c w : List (String × ℕ)) :
    games.foldl (cwGameStep side) (c, w) =
      ((pickedOccsKnown games side).foldl countUpd c,
        (pickedOccsWin games side).foldl countUpd w) := by
  induction games generalizing c w with
  | nil => simp [pickedOccsKnown, pickedOccsWin]
  | cons g rest ih =>
    rw [List.foldl_cons]
    by_cases hnone : (sideState g side).won = none
    · rw [show cwGameStep side (c, w) g = (c, w) by simp [cwGameStep, hnone], ih]
      have hw : ¬ (sideState g side).won = some true := by simp [hnone]
      simp [pickedOccsKnown, pickedOccsWin, List.flatMap_cons, hnone, hw]
    · rw [show cwGameStep side (c, w) g =
        (sideState g side).players.foldl (cwPlayerStep (sideState g side).won) (c, w) by
          simp [cwGameStep, hnone],
        cwPlayerStep_fold, ih]
      by_cases hw : (sideState g side).won = some true <;>
        simp [pickedOccsKnown, pickedOccsWin, List.flatMap_cons, hnone, hw, List.foldl_append]

theorem champKeyLe_iff (x y : ℕ × ℕ × ℚ) :
    champKeyLe x y = true ↔
      x.1 < y.1 ∨ (x.1 = y.1 ∧ (x.2.1 < y.2.1 ∨ (x.2.1 = y.2.1 ∧ x.2.2 ≤ y.2.2))) := by
  simp [champKeyLe]

theorem champKeyLe_trans {x y z : ℕ × ℕ × ℚ} (h₁ : champKeyLe x y = true)
    (h₂ : champKeyLe y z = true) : champKeyLe x z = true := by
  rw [champKeyLe_iff] at *
  rcases h₁ with h₁ | ⟨e₁, h₁⟩
  · rcases h₂ with h₂ | ⟨e₂, h₂⟩
    · exact Or.inl (h₁.trans h₂)
    · exact Or.inl (e₂ ▸ h₁)
  · rcases h₂ with h₂ | ⟨e₂, h₂⟩
    · exact Or.inl (e₁ ▸ h₂)
    · refine Or.inr ⟨e₁.trans e₂, ?_⟩
      rcases h₁ with h₁ | ⟨f₁, h₁⟩
      · rcases h₂ with h₂ | ⟨f₂, h₂⟩
        · exact Or.inl (h₁.trans h₂)
        · exact Or.inl (f₂ ▸ h₁)
      · rcases h₂ with h₂ | ⟨f₂, h₂⟩
        · exact Or.inl (f₁ ▸ h₂)
        · exact Or.inr ⟨f₁.trans f₂, h₁.trans h₂⟩

theorem champKeyLe_total (x y : ℕ × ℕ × ℚ) :
    (champKeyLe x y || champKeyLe y x) = true := by
  rw [Bool.or_eq_true, champKeyLe_iff, champKeyLe_iff]
  rcases lt_trichotomy x.1 y.1 with h | h | h
  · exact Or.inl (Or.inl h)
  · rcases lt_trichotomy x.2.1 y.2.1 with h₂ | h₂ | h₂
    · exact Or.inl (Or.inr ⟨h, Or.inl h₂⟩)
    · rcases le_total x.2.2 y.2.2 with h₃ | h₃
      · exact Or.inl (Or.inr ⟨h, Or.inr ⟨h₂, h₃⟩⟩)
      · exact Or.inr (Or.inr ⟨h.symm, Or.inr ⟨h₂.symm, h₃⟩⟩)
    · exact Or.inr (Or.inr ⟨h.symm, Or.inl h₂⟩)
  · exact Or.inr (Or.inl h)

/-- C7 (amended): rows of `compute_champion_winrates` are in bijection with
the characters picked on that side in games with a known result (not in every
game, see the counterexample); `games` and `wins` count per-player pick
occurrences in such games, `winrate = wins / games`, `stable` holds iff
`games ≥ min_games`, characters are pairwise distinct, and the rows are
sorted descending lexicographically by `(stable, games, winrate)`. -/
theorem C7_champion_winrates (games : List GameRecord) (side : String) (min_games : ℕ) :
    (∀ c, (∃ row ∈ compute_champion_winrates games side min_games, row.character = c) ↔
        c ∈ pickedOccsKnown games side) ∧
      (∀ row ∈ compute_champion_winrates games side min_games,
        row.games = (pickedOccsKnown games side).count row.character ∧
          row.wins = (pickedOccsWin games side).count row.character ∧
          row.winrate = (row.wins : ℚ) / (row.games : ℚ) ∧
          (row.stable = true ↔ min_games ≤ row.games)) ∧
      ((compute_champion_winrates games side min_games).map fun r => r.character).Nodup ∧
      (compute_champion_winrates games side min_games).Pairwise
        fun a b => champRowLe a b = true := by
  have hfold := cwGameStep_fold side games [] []
  have hgetc : ∀ k, dictGet? ((pickedOccsKnown games side).foldl countUpd []) k =
      if k ∈ pickedOccsKnown games side then
        some ((pickedOccsKnown games side).count k) else none := by
    intro k
    rw [countUpd_foldl_get]
    simp [dictGet?]
  have hgetw : ∀ k, dictGet? ((pickedOccsWin games side).foldl countUpd []) k =
      if k ∈ pickedOccsWin games side then
        some ((pickedOccsWin games side).count k) else none := by
    intro k
    rw [countUpd_foldl_get]
    simp [dictGet?]
  have hnodup : (dictKeys ((pickedOccsKnown games side).foldl countUpd [])).Nodup :=
    countUpd_foldl_keys_nodup _ _ (by simp [dictKeys])
  simp only [compute_champion_winrates, hfold]
  set counts := (pickedOccsKnown games side).foldl countUpd [] with hcounts
  set wins := (pickedOccsWin games side).foldl countUpd [] with hwins
  set mk : String × ℕ → ChampRow := fun cn =>
    { character := cn.1
      games := cn.2
      wins := (dictGet? wins cn.1).getD 0
      winrate := if cn.2 ≠ 0 then (((dictGet? wins cn.1).getD 0 : ℕ) : ℚ) / (cn.2 : ℚ) else 0
      stable := decide (min_games ≤ cn.2) } with hmk
  have hperm : (List.mergeSort (counts.map mk) champRowLe).Perm (counts.map mk) :=
    List.mergeSort_perm _ _
  have hmem_char : ∀ cn ∈ counts, cn.1 ∈ pickedOccsKnown games side ∧
      cn.2 = (pickedOccsKnown games side).count cn.1 := by
    intro cn hcn
    have hget := dictGet?_eq_of_mem_nodup hnodup (show (cn.1, cn.2) ∈ counts from hcn)
    rw [hgetc cn.1] at hget
    by_cases h : cn.1 ∈ pickedOccsKnown games side
    · rw [if_pos h] at hget
      exact ⟨h, (Option.some.inj hget).symm⟩
    · rw [if_neg h] at hget
      cases hget
  refine ⟨?_, ?_, ?_, ?_⟩
  · intro c
    constructor
    · rintro ⟨row, hrow, rfl⟩
      have hrow₀ := hperm.mem_iff.1 hrow
      obtain ⟨cn, hcn, rfl⟩ := List.mem_map.1 hrow₀
      exact (hmem_char cn hcn).1
    · intro hc
      have hget := hgetc c
      rw [if_pos hc] at hget
      have hmem : (c, (pickedOccsKnown games side).count c) ∈ counts :=
        dictGet?_some_mem hget
      exact ⟨mk (c, (pickedOccsKnown games side).count c),
        hperm.mem_iff.2 (List.mem_map_of_mem mk hmem), rfl⟩
  · intro row hrow
    have hrow₀ := hperm.mem_iff.1 hrow
    obtain ⟨cn, hcn, rfl⟩ := List.mem_map.1 hrow₀
    obtain ⟨hcmem, hcnt⟩ := hmem_char cn hcn
    have hwinval : (dictGet? wins cn.1).getD 0 = (pickedOccsWin games side).count cn.1 := by
      rw [hgetw cn.1]
      by_cases h : cn.1 ∈ pickedOccsWin games side
      · rw [if_pos h]
        rfl
      · rw [if_neg h]
        rw [List.count_eq_zero_of_not_mem h]
        rfl
    have hpos : cn.2 ≠ 0 := by
      rw [hcnt]
      have := List.count_pos_iff.2 hcmem
      omega
    refine ⟨hcnt, hwinval, ?_, ?_⟩
    · simp only [hmk, if_pos hpos, hwinval]
    · simp [hmk]
  · have hmapchar : (counts.map mk).map (fun r => r.character) = dictKeys counts := by
      rw [List.map_map]
      rfl
    have : ((List.mergeSort (counts.map mk) champRowLe).map fun r => r.character).Perm
        ((counts.map mk).map fun r => r.character) := hperm.map _
    exact this.nodup_iff.2 (hmapchar ▸ hnodup)
  · exact @List.sorted_mergeSort ChampRow champRowLe
      (fun a b c hab hbc => champKeyLe_trans hbc hab)
      (fun a b => champKeyLe_total (champKey b) (champKey a)) (counts.map mk)

/-- Counterexample to C7 as stated: a character picked only in a game with an
unknown result gets no row at all. -/
theorem C7_champion_winrates_counterexample :
    "Gnar" ∈ pickedOccs [unknownResultGame] "opponent" ∧
      ¬ ∃ row ∈ compute_champion_winrates [unknownResultGame] "opponent" 3,
        row.character = "Gnar" := by
  have h0 : [unknownResultGame].foldl (cwGameStep "opponent") ([], []) = ([], []) := by
    decide
  constructor
  · decide
  · simp [compute_champion_winrates, h0, List.mergeSort_nil]

/-- Witness for C7 at the single Gnar-vs-Ornn game: the Ornn row counts one
known-result pick and zero wins. -/
theorem C7_champion_winrates_witness :
    (⟨"Ornn", 1, 0, 0, false⟩ : ChampRow) ∈
        compute_champion_winrates [gnarOrnnWin] "opponent" 3 ∧
      ((⟨"Ornn", 1, 0, 0, false⟩ : ChampRow).games =
          (pickedOccsKnown [gnarOrnnWin] "opponent").count
            (⟨"Ornn", 1, 0, 0, false⟩ : ChampRow).character ∧
        (⟨"Ornn", 1, 0, 0, false⟩ : ChampRow).wins =
          (pickedOccsWin [gnarOrnnWin] "opponent").count
            (⟨"Ornn", 1, 0, 0, false⟩ : ChampRow).character ∧
        (⟨"Ornn", 1, 0, 0, false⟩ : ChampRow).winrate =
          (((⟨"Ornn", 1, 0, 0, false⟩ : ChampRow).wins : ℚ) /
            ((⟨"Ornn", 1, 0, 0, false⟩ : ChampRow).games : ℚ)) ∧
        ((⟨"Ornn", 1, 0, 0, false⟩ : ChampRow).stable = true ↔
          3 ≤ (⟨"Ornn", 1, 0, 0, false⟩ : ChampRow).games)) := by
  have h0 : [gnarOrnnWin].foldl (cwGameStep "opponent") ([], []) = ([("Ornn", 1)], []) := by
    decide
  have hrows : compute_champion_winrates [gnarOrnnWin] "opponent" 3 =
      [⟨"Ornn", 1, 0, 0, false⟩] := by
    simp only [compute_champion_winrates, h0, List.map_cons, List.map_nil]
    rw [show (dictGet? ([] : List (String × ℕ)) "Ornn").getD 0 = 0 from rfl]
    norm_num [List.mergeSort_singleton, dictGet?]
  have hmem : (⟨"Ornn", 1, 0, 0, false⟩ : ChampRow) ∈
      compute_champion_winrates [gnarOrnnWin] "opponent" 3 := by
    rw [hrows]
    exact List.mem_singleton.2 rfl
  exact ⟨hmem, (C7_champion_winrates [gnarOrnnWin] "opponent" 3).2.1 _ hmem⟩

/-! ## C5: matchup-table counting -/

theorem idxStep_of_truthy {out : List (String × PlayerPerf)} {p : PlayerPerf} {r₀ : String}
    (hrolev : p.role = some r₀) (hchar : strTruthy p.character = true) (hr₀ : r₀ ≠ "") :
    idxStep out p = if dictHas out r₀ then out else out ++ [(r₀, p)] := by
  have hrole : strTruthy p.role = true := by
    rw [hrolev]
    simpa [strTruthy] using hr₀
  unfold idxStep
  rw [if_pos ⟨hrole, hchar⟩]
  simp only [hrolev]

theorem idxStep_of_not {out : List (String × PlayerPerf)} {p : PlayerPerf}
    (h : ¬ (strTruthy p.role = true ∧ strTruthy p.character = true)) : idxStep out p = out := by
  unfold idxStep
  rw [if_neg h]

theorem index_fold_get (players : List PlayerPerf) (out : List (String × PlayerPerf))
    (r : String) :
    dictGet? (players.foldl idxStep out) r =
      match dictGet? out r with
      | some p => some p
      | none =>
        if r = "" then none
        else players.find? fun p => decide (p.role = some r) && strTruthy p.character := by
  induction players generalizing out with
  | nil =>
    cases h : dictGet? out r <;> simp [h, List.find?_nil]
  | cons p rest ih =>
    rw [List.foldl_cons]
    by_cases hcond : strTruthy p.role = true ∧ strTruthy p.character = true
    · obtain ⟨hrole, hchar⟩ := hcond
      cases hrolev : p.role with
      | none => rw [hrolev] at hrole; cases hrole
      | some r₀ =>
        have hr₀ : r₀ ≠ "" := by
          rw [hrolev] at hrole
          simpa [strTruthy] using hrole
        rw [idxStep_of_truthy hrolev hchar hr₀]
        by_cases hhas : dictHas out r₀
        · rw [if_pos hhas, ih]
          by_cases hreq : r = r₀
          · subst hreq
            obtain ⟨q, hq⟩ := Option.isSome_iff_exists.1 hhas
            simp [hq]
          · cases hget : dictGet? out r
            · have hne : p.role ≠ some r := by
                rw [hrolev]
                intro hx
                exact hreq (Option.some.inj hx).symm
              have hpred : (decide (p.role = some r) && strTruthy p.character) = false := by
                simp [hne]
              simp [hget, List.find?_cons, hpred]
            · simp [hget]
        · rw [if_neg hhas, ih, dictGet?_append]
          cases hget : dictGet? out r
          · by_cases hreq : r = r₀
            · subst hreq
              have hpred : (decide (p.role = some r) && strTruthy p.character) = true := by
                simp [hrolev, hchar]
              simp [hget, dictGet?, List.find?_cons, hpred, hr₀]
            · have hne : p.role ≠ some r := by
                rw [hrolev]
                intro hx
                exact hreq (Option.some.inj hx).symm
              have hpred : (decide (p.role = some r) && strTruthy p.character) = false := by
                simp [hne]
              have hne₂ : ¬ r₀ = r := fun hx => hreq hx.symm
              simp [hget, dictGet?, hne₂, List.find?_cons, hpred]
          · simp [hget]
    · rw [idxStep_of_not hcond, ih]
      cases hget : dictGet? out r
      · by_cases hr : r = ""
        · simp [hget, hr]
        · have hpred : (decide (p.role = some r) && strTruthy p.character) = false := by
            by_cases hchar : strTruthy p.character = true
            · cases hrolev : p.role with
              | none => simp [hrolev]
              | some s =>
                have hnrole : ¬ strTruthy p.role = true := fun h => hcond ⟨h, hchar⟩
                rw [hrolev] at hnrole
                have hs : s = "" := by simpa [strTruthy] using hnrole
                subst hs
                have hne : (some "" : Option String) ≠ some r := by
                  intro hx
                  exact hr (Option.some.inj hx).symm
                simp [hrolev, hne]
            · simp [hchar]
          simp [hget, hr, List.find?_cons, hpred]
      · simp [hget]

theorem index_by_role_get (players : List PlayerPerf) (r : String) :
    dictGet? (index_by_role players) r =
      if r = "" then none
      else players.find? fun p => decide (p.role = some r) && strTruthy p.character := by
  rw [index_by_role, index_fold_get]
  rfl

theorem firstRolePick_eq (players : List PlayerPerf) (r : String) :
    firstRolePick players r =
      (dictGet? (index_by_role players) r).map fun p => pyStrOrEmpty p.character := by
  rw [index_by_role_get, firstRolePick]
  by_cases hr : r = "" <;> simp [hr]

theorem index_lookup_char_truthy {players : List PlayerPerf} {r : String} {p : PlayerPerf}
    (h : dictGet? (index_by_role players) r = some p) : pyStrOrEmpty p.character ≠ "" := by
  rw [index_by_role_get] at h
  by_cases hr : r = ""
  · rw [if_pos hr] at h
    cases h
  · rw [if_neg hr] at h
    have hpred := List.find?_some h
    rw [Bool.and_eq_true] at hpred
    have hchar : strTruthy p.character = true := hpred.2
    cases hc : p.character with
    | none => rw [hc] at hchar; cases hchar
    | some s =>
      rw [hc] at hchar
      simp only [strTruthy] at hchar
      simp [pyStrOrEmpty, pyOrStr, strTruthy, hc, hchar]
      simpa using hchar

theorem sum_single_key {K V M : Type} [DecidableEq K] [AddCommMonoid M]
    (l : List (K × V)) (hnd : (dictKeys l).Nodup) (k : K) (f : K × V → M)
    (hf : ∀ e ∈ l, e.1 ≠ k → f e = 0) :
    (l.map f).sum =
      match dictGet? l k with
      | some v => f (k, v)
      | none => 0 := by
  induction l with
  | nil => simp [dictGet?]
  | cons hd tl ih =>
    obtain ⟨k₁, v₁⟩ := hd
    rw [List.map_cons, List.sum_cons]
    by_cases h₁ : k₁ = k
    · subst h₁
      have hrest : (tl.map f).sum = 0 := by
        apply List.sum_eq_zero
        intro x hx
        obtain ⟨e, he, rfl⟩ := List.mem_map.1 hx
        apply hf e (List.mem_cons_of_mem _ he)
        intro hek
        have hkm : k₁ ∈ dictKeys tl := by
          rw [← hek]
          exact List.mem_map_of_mem Prod.fst he
        exact (List.nodup_cons.1 hnd).1 hkm
      simp [dictGet?, hrest]
    · rw [hf (k₁, v₁) (List.mem_cons_self _ _) h₁,
        ih (List.nodup_cons.1 hnd).2 fun e he h => hf e (List.mem_cons_of_mem _ he) h]
      simp [dictGet?, h₁]

theorem index_by_role_keys_nodup (players : List PlayerPerf) :
    (dictKeys (index_by_role players)).Nodup := by
  rw [index_by_role]
  suffices h : ∀ out : List (String × PlayerPerf), (dictKeys out).Nodup →
      (dictKeys (players.foldl idxStep out)).Nodup by
    exact h [] (by simp [dictKeys])
  induction players with
  | nil => exact fun out h => h
  | cons p rest ih =>
    intro out hout
    rw [List.foldl_cons]
    apply ih
    by_cases hcond : strTruthy p.role = true ∧ strTruthy p.character = true
    · obtain ⟨hrole, hchar⟩ := hcond
      cases hrolev : p.role with
      | none => rw [hrolev] at hrole; cases hrole
      | some r₀ =>
        have hr₀ : r₀ ≠ "" := by
          rw [hrolev] at hrole
          simpa [strTruthy] using hrole
        rw [idxStep_of_truthy hrolev hchar hr₀]
        by_cases hhas : dictHas out r₀
        · rw [if_pos hhas]
          exact hout
        · rw [if_neg hhas]
          have hk : r₀ ∉ dictKeys out := fun hm => hhas (dictHas_iff_mem_keys.2 hm)
          rw [show dictKeys (out ++ [(r₀, p)]) = dictKeys out ++ [r₀] by
            simp [dictKeys]]
          simp [List.nodup_append, hout, hk]
    · rw [idxStep_of_not hcond]
      exact hout

theorem matchupContrib_ne_fst (won : Option Bool) (opp : List (String × PlayerPerf))
    (key : MatchupKey) (e : String × PlayerPerf) (hne : e.1 ≠ key.1) :
    matchupContrib won opp key e = (0, 0) := by
  unfold matchupContrib
  cases hopp : dictGet? opp e.1 with
  | none => rfl
  | some their =>
    simp only
    by_cases hempty : pyStrOrEmpty e.2.character = "" ∨ pyStrOrEmpty their.character = ""
    · rw [if_pos hempty]
    · have hkne : ¬ ((e.1, pyStrOrEmpty e.2.character, pyStrOrEmpty their.character) = key) :=
        fun hk => hne (congrArg Prod.fst hk)
      rw [if_neg hempty, if_neg hkne]

theorem matchupRoleStep_stats (won : Option Bool) (opp : List (String × PlayerPerf))
    (l : List (String × PlayerPerf)) (t : List (MatchupKey × MatchupStats))
    (key : MatchupKey) :
    (statsAt (l.foldl (matchupRoleStep won opp) t) key).games =
        (statsAt t key).games + ((l.map fun e => (matchupContrib won opp key e).1).sum) ∧
      (statsAt (l.foldl (matchupRoleStep won opp) t) key).wins =
        (statsAt t key).wins + ((l.map fun e => (matchupContrib won opp key e).2).sum) := by
  induction l generalizing t with
  | nil => simp
  | cons e rest ih =>
    rw [List.foldl_cons]
    obtain ⟨ihg, ihw⟩ := ih (matchupRoleStep won opp t e)
    have hstep : (statsAt (matchupRoleStep won opp t e) key).games =
        (statsAt t key).games + (matchupContrib won opp key e).1 ∧
        (statsAt (matchupRoleStep won opp t e) key).wins =
        (statsAt t key).wins + (matchupContrib won opp key e).2 := by
      unfold matchupRoleStep matchupContrib
      cases hopp : dictGet? opp e.1 with
      | none => simp
      | some their =>
        simp only
        by_cases hempty : pyStrOrEmpty e.2.character = "" ∨ pyStrOrEmpty their.character = ""
        · rw [if_pos hempty, if_pos hempty]
          simp
        · rw [if_neg hempty, if_neg hempty]
          by_cases hkey : (e.1, pyStrOrEmpty e.2.character, pyStrOrEmpty their.character) = key
          · rw [if_pos hkey, hkey]
            unfold statsAt
            rw [dictGet?_dictUpd_self]
            simp
          · rw [if_neg hkey]
            unfold statsAt
            rw [dictGet?_dictUpd_ne _ _ _ _ (Ne.symm hkey)]
            simp
    rw [ihg, ihw, hstep.1, hstep.2]
    constructor <;> simp [List.map_cons, List.sum_cons] <;> ring

theorem matchupGameStep_stats (t : List (MatchupKey × MatchupStats)) (g : GameRecord)
    (key : MatchupKey) :
    (statsAt (matchupGameStep t g) key).games =
        (statsAt t key).games +
          (if firstRolePick g.team.players key.1 = some key.2.1 ∧
              firstRolePick g.opponent.players key.1 = some key.2.2 then 1 else 0) ∧
      (statsAt (matchupGameStep t g) key).wins =
        (statsAt t key).wins +
          (if firstRolePick g.team.players key.1 = some key.2.1 ∧
              firstRolePick g.opponent.players key.1 = some key.2.2 ∧
              g.team.won = some true then 1 else 0) := by
  unfold matchupGameStep
  obtain ⟨hg, hw⟩ := matchupRoleStep_stats g.team.won (index_by_role g.opponent.players)
    (index_by_role g.team.players) t key
  have hfst := sum_single_key (index_by_role g.team.players)
    (index_by_role_keys_nodup _) key.1
    (fun e => (matchupContrib g.team.won (index_by_role g.opponent.players) key e).1)
    (by
      intro e he hne
      show (matchupContrib g.team.won (index_by_role g.opponent.players) key e).1 = 0
      rw [matchupContrib_ne_fst _ _ _ _ hne])
  have hsnd := sum_single_key (index_by_role g.team.players)
    (index_by_role_keys_nodup _) key.1
    (fun e => (matchupContrib g.team.won (index_by_role g.opponent.players) key e).2)
    (by
      intro e he hne
      show (matchupContrib g.team.won (index_by_role g.opponent.players) key e).2 = 0
      rw [matchupContrib_ne_fst _ _ _ _ hne])
  rw [hg, hw, hfst, hsnd]
  cases hteam : dictGet? (index_by_role g.team.players) key.1 with
  | none =>
    have hfp : firstRolePick g.team.players key.1 = none := by
      rw [firstRolePick_eq, hteam]
      rfl
    simp [hfp]
  | some p =>
    have hfp : firstRolePick g.team.players key.1 = some (pyStrOrEmpty p.character) := by
      rw [firstRolePick_eq, hteam]
      rfl
    cases hopp : dictGet? (index_by_role g.opponent.players) key.1 with
    | none =>
      have hfo : firstRolePick g.opponent.players key.1 = none := by
        rw [firstRolePick_eq, hopp]
        rfl
      have hC : matchupContrib g.team.won (index_by_role g.opponent.players) key
          (key.1, p) = (0, 0) := by
        unfold matchupContrib
        rw [hopp]
      simp [hC, hfo]
    | some q =>
      have hfo : firstRolePick g.opponent.players key.1 = some (pyStrOrEmpty q.character) := by
        rw [firstRolePick_eq, hopp]
        rfl
      have hpc : pyStrOrEmpty p.character ≠ "" := index_lookup_char_truthy hteam
      have hqc : pyStrOrEmpty q.character ≠ "" := index_lookup_char_truthy hopp
      have hnempty : ¬ (pyStrOrEmpty p.character = "" ∨ pyStrOrEmpty q.character = "") := by
        rintro (h | h)
        · exact hpc h
        · exact hqc h
      by_cases hkey : (key.1, pyStrOrEmpty p.character, pyStrOrEmpty q.character) = key
      · have hC : matchupContrib g.team.won (index_by_role g.opponent.players) key
            (key.1, p) = (1, if g.team.won = some true then 1 else 0) := by
          unfold matchupContrib
          rw [hopp]
          simp only
          rw [if_neg hnempty, if_pos hkey]
        have h₁ : pyStrOrEmpty p.character = key.2.1 := by
          have := congrArg (fun x : MatchupKey => x.2.1) hkey
          simpa using this
        have h₂ : pyStrOrEmpty q.character = key.2.2 := by
          have := congrArg (fun x : MatchupKey => x.2.2) hkey
          simpa using this
        have hcondT : firstRolePick g.team.players key.1 = some key.2.1 ∧
            firstRolePick g.opponent.players key.1 = some key.2.2 := by
          constructor
          · rw [hfp, h₁]
          · rw [hfo, h₂]
        constructor
        · show (statsAt t key).games +
            (matchupContrib g.team.won (index_by_role g.opponent.players) key (key.1, p)).1 = _
          rw [hC]
          simp [hcondT.1, hcondT.2]
        · show (statsAt t key).wins +
            (matchupContrib g.team.won (index_by_role g.opponent.players) key (key.1, p)).2 = _
          rw [hC]
          by_cases hwon : g.team.won = some true
          · simp [hwon, hcondT.1, hcondT.2]
          · simp [hwon]
      · have hC : matchupContrib g.team.won (index_by_role g.opponent.players) key
            (key.1, p) = (0, 0) := by
          unfold matchupContrib
          rw [hopp]
          simp only
          rw [if_neg hnempty, if_neg hkey]
        have hcond : ¬ (firstRolePick g.team.players key.1 = some key.2.1 ∧
            firstRolePick g.opponent.players key.1 = some key.2.2) := by
          rintro ⟨h₁, h₂⟩
          rw [hfp] at h₁
          rw [hfo] at h₂
          apply hkey
          have e₁ : pyStrOrEmpty p.character = key.2.1 := Option.some.inj h₁
          have e₂ : pyStrOrEmpty q.character = key.2.2 := Option.some.inj h₂
          rw [e₁, e₂]
        have hcond₂ : ¬ (firstRolePick g.team.players key.1 = some key.2.1 ∧
            firstRolePick g.opponent.players key.1 = some key.2.2 ∧
            g.team.won = some true) := fun h => hcond ⟨h.1, h.2.1⟩
        simp [hC, hcond, hcond₂]

theorem build_matchup_fold_stats (games : List GameRecord)
    (t : List (MatchupKey × MatchupStats)) (key : MatchupKey) :
    (statsAt (games.foldl matchupGameStep t) key).games =
        (statsAt t key).games + matchupGamesCount games key.1 key.2.1 key.2.2 ∧
      (statsAt (games.foldl matchupGameStep t) key).wins =
        (statsAt t key).wins + matchupWinsCount games key.1 key.2.1 key.2.2 := by
  induction games generalizing t with
  | nil => simp [matchupGamesCount, matchupWinsCount]
  | cons g rest ih =>
    rw [List.foldl_cons]
    obtain ⟨ihg, ihw⟩ := ih (matchupGameStep t g)
    obtain ⟨hg, hw⟩ := matchupGameStep_stats t g key
    rw [ihg, ihw, hg, hw]
    unfold matchupGamesCount matchupWinsCount
    rw [List.filter_cons, List.filter_cons]
    constructor
    · by_cases hcond : firstRolePick g.team.players key.1 = some key.2.1 ∧
        firstRolePick g.opponent.players key.1 = some key.2.2
      · simp only [if_pos hcond]
        rw [if_pos (by exact decide_eq_true (by exact hcond))]
        simp [List.length_cons]
        ring
      · simp only [if_neg hcond]
        rw [if_neg (by simpa using hcond)]
        simp
    · by_cases hcond : firstRolePick g.team.players key.1 = some key.2.1 ∧
        firstRolePick g.opponent.players key.1 = some key.2.2 ∧ g.team.won = some true
      · simp only [if_pos hcond]
        rw [if_pos (by exact decide_eq_true (by exact hcond))]
        simp [List.length_cons]
        ring
      · simp only [if_neg hcond]
        rw [if_neg (by simpa using hcond)]
        simp

/-- C5: `build_matchup_table` counts, at every key `(role, ours, theirs)`,
exactly the games in which both sides have those first-seen-per-role picks,
and among those the wins of the requesting team; in particular two Gnar-vs-Ornn
wins on top give a `("top", "Gnar", "Ornn")` entry with `games = wins = 2` and
posterior winrate `(2+2)/(2+4)`. -/
theorem C5_build_matchup_table :
    (∀ (games : List GameRecord) (r a b : String),
        statsAt (build_matchup_table games) (r, a, b) =
          ⟨matchupGamesCount games r a b, matchupWinsCount games r a b⟩) ∧
      statsAt (build_matchup_table [gnarOrnnWin, gnarOrnnWin]) ("top", "Gnar", "Ornn") =
        ⟨2, 2⟩ ∧
      (⟨2, 2⟩ : MatchupStats).posterior_winrate 2 2 = (2 + 2) / (2 + 4) := by
  refine ⟨?_, by decide, by norm_num [MatchupStats.posterior_winrate]⟩
  intro games r a b
  obtain ⟨hg, hw⟩ := build_matchup_fold_stats games [] (r, a, b)
  rw [build_matchup_table]
  have heta : statsAt (games.foldl matchupGameStep []) (r, a, b) =
      ⟨(statsAt (games.foldl matchupGameStep []) (r, a, b)).games,
        (statsAt (games.foldl matchupGameStep []) (r, a, b)).wins⟩ := rfl
  rw [heta, hg, hw]
  have h0g : (statsAt [] ((r, a, b) : MatchupKey)).games = 0 := rfl
  have h0w : (statsAt [] ((r, a, b) : MatchupKey)).wins = 0 := rfl
  rw [h0g, h0w]
  simp

/-! ## C3: the fallback clustering depends on the ambient random draw -/

theorem sumSqDiff_cons (x y : ℝ) (xs ys : List ℝ) :
    sumSqDiff (x :: xs) (y :: ys) = (x - y) ^ 2 + sumSqDiff xs ys := by
  simp [sumSqDiff]

theorem sumSqDiff_replicate_zero (n : ℕ) (a b : List ℝ) :
    sumSqDiff (List.replicate n 0 ++ a) (List.replicate n 0 ++ b) = sumSqDiff a b := by
  induction n with
  | zero => simp
  | succ m ih =>
    rw [List.replicate_succ, List.cons_append, List.cons_append, sumSqDiff_cons, ih]
    norm_num

theorem sumSqDiff_scenVec (a b : ℝ) : sumSqDiff (scenVec a) (scenVec b) = (a - b) ^ 2 := by
  unfold scenVec
  rw [sumSqDiff_replicate_zero]
  rw [sumSqDiff_cons, sumSqDiff_cons, sumSqDiff_cons]
  simp [sumSqDiff]

theorem euclid_scen (a b : ℝ) : euclidean (scenVec a) (scenVec b) = |a - b| := by
  unfold euclidean
  rw [sumSqDiff_scenVec]
  exact Real.sqrt_sq_eq_abs _

theorem game_vector_scen (h : String → Int) (i k : Int) :
    game_vector h (scenGame i k) 32 = scenVec (k : ℝ) := by
  simp [game_vector, scenGame, scenVec]

theorem argmin3 (f : ℕ → ℝ) :
    argminKey f 3 =
      if f 1 < f 0 then (if f 2 < f 1 then 2 else 1) else if f 2 < f 0 then 2 else 0 := by
  unfold argminKey
  rw [show List.range 3 = [0, 1, 2] from rfl]
  simp only [List.foldl_cons, List.foldl_nil]
  by_cases h1 : f 1 < f 0 <;> simp [h1]

theorem zipStar_singleton (v : List ℝ) : zipStar [v] = v.map fun x => [x] := rfl

theorem mean_singleton (v : List ℝ) :
    (zipStar [v]).map (fun vals => vals.sum / (([v] : List (List ℝ)).length : ℝ)) = v := by
  rw [zipStar_singleton, List.map_map]
  simp [Function.comp_def]

theorem kmeansStep_sample₁ (l : List ℕ) :
    kmeansStep scenSample₁ 3 (l, scenSample₁) = ([0, 1, 2], scenSample₁) := by
  have e00 : euclidean (scenVec 0) (scenVec 0) = 0 := by rw [euclid_scen]; norm_num
  have e010 : euclidean (scenVec 0) (scenVec 10) = 10 := by rw [euclid_scen]; norm_num
  have e020 : euclidean (scenVec 0) (scenVec 20) = 20 := by rw [euclid_scen]; norm_num
  have e100 : euclidean (scenVec 10) (scenVec 0) = 10 := by
    rw [euclid_scen]
    rw [show (10 : ℝ) - 0 = 10 by norm_num]
    norm_num
  have e1010 : euclidean (scenVec 10) (scenVec 10) = 0 := by rw [euclid_scen]; norm_num
  have e1020 : euclidean (scenVec 10) (scenVec 20) = 10 := by rw [euclid_scen]; norm_num
  have e200 : euclidean (scenVec 20) (scenVec 0) = 20 := by
    rw [euclid_scen]
    norm_num
  have e2010 : euclidean (scenVec 20) (scenVec 10) = 10 := by
    rw [euclid_scen]
    norm_num
  have e2020 : euclidean (scenVec 20) (scenVec 20) = 0 := by rw [euclid_scen]; norm_num
  unfold kmeansStep
  have hlab : scenSample₁.map
      (fun v => argminKey (fun c => euclidean v (((l, scenSample₁).2).getD c [])) 3) =
      [0, 1, 2] := by
    simp only [scenSample₁, List.map_cons, List.map_nil]
    rw [argmin3, argmin3, argmin3]
    show _ = [0, 1, 2]
    norm_num [e00, e010, e020, e100, e1010, e1020, e200, e2010, e2020]
  simp only [hlab]
  refine congrArg _ ?_
  rw [show List.range 3 = [0, 1, 2] from rfl]
  simp only [List.foldl_cons, List.foldl_nil]
  rw [show ((scenSample₁.zip [0, 1, 2]).filter fun vl => vl.2 = 0) = [(scenVec 0, 0)] by
    simp [scenSample₁, List.zip, List.filter]]
  rw [show ((scenSample₁.zip [0, 1, 2]).filter fun vl => vl.2 = 1) = [(scenVec 10, 1)] by
    simp [scenSample₁, List.zip, List.filter]]
  rw [show ((scenSample₁.zip [0, 1, 2]).filter fun vl => vl.2 = 2) = [(scenVec 20, 2)] by
    simp [scenSample₁, List.zip, List.filter]]
  simp only [List.map_cons, List.map_nil, List.isEmpty_cons, Bool.false_eq_true, if_false,
    mean_singleton]
  simp [scenSample₁, List.set]

theorem kmeansStep_sample₂ (l : List ℕ) :
    kmeansStep scenSample₁ 3 (l, scenSample₂) = ([1, 0, 2], scenSample₂) := by
  have e010 : euclidean (scenVec 0) (scenVec 10) = 10 := by rw [euclid_scen]; norm_num
  have e00 : euclidean (scenVec 0) (scenVec 0) = 0 := by rw [euclid_scen]; norm_num
  have e020 : euclidean (scenVec 0) (scenVec 20) = 20 := by rw [euclid_scen]; norm_num
  have e1010 : euclidean (scenVec 10) (scenVec 10) = 0 := by rw [euclid_scen]; norm_num
  have e100 : euclidean (scenVec 10) (scenVec 0) = 10 := by rw [euclid_scen]; norm_num
  have e1020 : euclidean (scenVec 10) (scenVec 20) = 10 := by rw [euclid_scen]; norm_num
  have e2010 : euclidean (scenVec 20) (scenVec 10) = 10 := by rw [euclid_scen]; norm_num
  have e200 : euclidean (scenVec 20) (scenVec 0) = 20 := by rw [euclid_scen]; norm_num
  have e2020 : euclidean (scenVec 20) (scenVec 20) = 0 := by rw [euclid_scen]; norm_num
  unfold kmeansStep
  have hlab : scenSample₁.map
      (fun v => argminKey (fun c => euclidean v (((l, scenSample₂).2).getD c [])) 3) =
      [1, 0, 2] := by
    simp only [scenSample₁, scenSample₂, List.map_cons, List.map_nil]
    rw [argmin3, argmin3, argmin3]
    norm_num [e00, e010, e020, e100, e1010, e1020, e200, e2010, e2020]
  simp only [hlab]
  refine congrArg _ ?_
  rw [show List.range 3 = [0, 1, 2] from rfl]
  simp only [List.foldl_cons, List.foldl_nil]
  rw [show ((scenSample₁.zip [1, 0, 2]).filter fun vl => vl.2 = 0) = [(scenVec 10, 0)] by
    simp [scenSample₁, List.zip, List.filter]]
  rw [show ((scenSample₁.zip [1, 0, 2]).filter fun vl => vl.2 = 1) = [(scenVec 0, 1)] by
    simp [scenSample₁, List.zip, List.filter]]
  rw [show ((scenSample₁.zip [1, 0, 2]).filter fun vl => vl.2 = 2) = [(scenVec 20, 2)] by
    simp [scenSample₁, List.zip, List.filter]]
  simp only [List.map_cons, List.map_nil, List.isEmpty_cons, Bool.false_eq_true, if_false,
    mean_singleton]
  simp [scenSample₂, List.set]

theorem kmeans_fallback_sample₁ :
    kmeans_fallback scenSample₁ 3 scenSample₁ 10 = [0, 1, 2] := by
  unfold kmeans_fallback
  rw [if_neg (by simp [scenSample₁])]
  rw [if_pos (by simp [scenSample₁])]
  have h10 : (kmeansStep scenSample₁ 3)^[10] (List.replicate scenSample₁.length 0,
      scenSample₁) = ([0, 1, 2], scenSample₁) := by
    rw [show (10 : ℕ) = 9 + 1 from rfl, Function.iterate_succ_apply, kmeansStep_sample₁]
    exact Function.iterate_fixed (kmeansStep_sample₁ [0, 1, 2]) 9
  simp only [h10]

theorem kmeans_fallback_sample₂ :
    kmeans_fallback scenSample₁ 3 scenSample₂ 10 = [1, 0, 2] := by
  unfold kmeans_fallback
  rw [if_neg (by simp [scenSample₁])]
  rw [if_pos (by simp [scenSample₁])]
  have h10 : (kmeansStep scenSample₁ 3)^[10] (List.replicate scenSample₁.length 0,
      scenSample₂) = ([1, 0, 2], scenSample₂) := by
    rw [show (10 : ℕ) = 9 + 1 from rfl, Function.iterate_succ_apply, kmeansStep_sample₂]
    exact Function.iterate_fixed (kmeansStep_sample₂ [1, 0, 2]) 9
  simp only [h10]

theorem scen_vectors_eq (s : List (List ℝ)) :
    scenGames.map (fun g => game_vector (fallbackEnv s).hash g 32) = scenSample₁ := by
  simp only [scenGames, List.map_cons, List.map_nil, game_vector_scen]
  norm_num [scenSample₁]

theorem cluster_labels_fallback (s : List (List ℝ)) (labs : List ℕ)
    (hk : kmeans_fallback scenSample₁ 3 s 10 = labs) :
    (cluster_scenarios_with_labels (fallbackEnv s) scenGames).2.1 = labs.map Int.ofNat := by
  unfold cluster_scenarios_with_labels
  rw [if_neg (by simp [scenGames])]
  simp only [fallbackEnv]
  have hv : List.map (fun g => game_vector (fun _ : String => (0 : Int)) g 32) scenGames =
      scenSample₁ := by
    simpa [fallbackEnv] using scen_vectors_eq s
  rw [hv]
  have hck : choose_k (fun _ => none) scenSample₁ = 3 := by
    unfold choose_k
    norm_num [scenSample₁]
  rw [hck]
  norm_num [hk]

/-- C3: two admissible draws of the unseeded `random.sample` in
`_kmeans_fallback` lead `cluster_scenarios_with_labels` to different label
assignments on the same three-game input along the fallback path (the two
environments differ only in the `sampleCenters` draw), so the clustering is
not deterministic. -/
theorem C3_cluster_determinism_bug :
    (scenGames.map fun g => game_vector (fallbackEnv scenSample₁).hash g 32) = scenSample₁ ∧
      isSample scenSample₁ scenSample₁ 3 ∧ isSample scenSample₂ scenSample₁ 3 ∧
      (cluster_scenarios_with_labels (fallbackEnv scenSample₁) scenGames).2.1 = [0, 1, 2] ∧
      (cluster_scenarios_with_labels (fallbackEnv scenSample₂) scenGames).2.1 = [1, 0, 2] ∧
      (cluster_scenarios_with_labels (fallbackEnv scenSample₁) scenGames).2.1 ≠
        (cluster_scenarios_with_labels (fallbackEnv scenSample₂) scenGames).2.1 := by
  have h₁ := cluster_labels_fallback scenSample₁ [0, 1, 2] kmeans_fallback_sample₁
  have h₂ := cluster_labels_fallback scenSample₂ [1, 0, 2] kmeans_fallback_sample₂
  refine ⟨scen_vectors_eq scenSample₁, ⟨rfl, scenSample₁, List.Sublist.refl _, List.Perm.refl _⟩,
    ⟨rfl, scenSample₁, List.Sublist.refl _, ?_⟩, by simpa using h₁, by simpa using h₂, ?_⟩
  · exact List.Perm.swap (scenVec 0) (scenVec 10) [scenVec 20]
  · rw [h₁, h₂]
    simp

/-! ### C6: the randomness score -/

theorem list_sum_map_add {α : Type} (l : List α) (f g : α → ℝ) :
    (l.map fun x => f x + g x).sum = (l.map f).sum + (l.map g).sum := by
  induction l with
  | nil => simp
  | cons a t ih => simp [ih]; ring

theorem list_sum_map_sub {α : Type} (l : List α) (f g : α → ℝ) :
    (l.map fun x => f x - g x).sum = (l.map f).sum - (l.map g).sum := by
  induction l with
  | nil => simp
  | cons a t ih => simp [ih]; ring

theorem list_sum_map_div {α : Type} (l : List α) (f : α → ℝ) (c : ℝ) :
    (l.map fun x => f x / c).sum = (l.map f).sum / c := by
  induction l with
  | nil => simp
  | cons a t ih => simp [ih]; ring

theorem list_sum_map_mul_left {α : Type} (l : List α) (f : α → ℝ) (c : ℝ) :
    (l.map fun x => c * f x).sum = c * (l.map f).sum := by
  induction l with
  | nil => simp
  | cons a t ih => simp [ih]; ring

theorem list_sum_map_const {α : Type} (l : List α) (c : ℝ) :
    (l.map fun _ => c).sum = l.length * c := by
  induction l with
  | nil => simp
  | cons a t ih => simp [ih]; ring

theorem list_map_self (l : List ℝ) : (l.map fun x => x) = l := by simp

theorem list_sum_nonpos (l : List ℝ) (h : ∀ x ∈ l, x ≤ 0) : l.sum ≤ 0 := by
  induction l with
  | nil => simp
  | cons a t ih =>
      simp only [List.sum_cons]
      have h1 := h a (List.mem_cons_self a t)
      have h2 := ih fun x hx => h x (List.mem_cons_of_mem a hx)
      linarith

theorem sum_filter_pos (vals : List ℝ) (h : ∀ v ∈ vals, 0 ≤ v) :
    (vals.filter fun v => decide (0 < v)).sum = vals.sum := by
  induction vals with
  | nil => simp
  | cons a t ih =>
      have ha := h a (List.mem_cons_self a t)
      have ht := ih fun v hv => h v (List.mem_cons_of_mem a hv)
      by_cases hpos : 0 < a
      · simp [List.filter_cons, hpos, ht]
      · have : a = 0 := le_antisymm (not_lt.1 hpos) ha
        simp [List.filter_cons, hpos, ht, this]

/-- `_entropy` of any list of non-negative values lies in `[0, 1]`; the upper
bound is Gibbs' inequality against the uniform distribution. -/
theorem entropyVals_mem_unit (vals : List ℝ) (h : ∀ v ∈ vals, 0 ≤ v) :
    0 ≤ entropyVals vals ∧ entropyVals vals ≤ 1 := by
  simp only [entropyVals]
  by_cases htot : vals.sum ≤ 0
  · rw [if_pos htot]
    exact ⟨le_refl 0, zero_le_one⟩
  rw [if_neg htot]
  push_neg at htot
  set probs := (vals.filter fun v => decide (0 < v)).map fun v => v / vals.sum with hprobs
  have hp_pos : ∀ p ∈ probs, 0 < p := by
    intro p hp
    obtain ⟨v, hv, rfl⟩ := List.mem_map.1 hp
    have hv' := (List.mem_filter.1 hv).2
    exact div_pos (of_decide_eq_true hv') htot
  have hp_le : ∀ p ∈ probs, p ≤ 1 := by
    intro p hp
    obtain ⟨v, hv, rfl⟩ := List.mem_map.1 hp
    have hvmem := (List.mem_filter.1 hv).1
    exact div_le_one_of_le (List.single_le_sum h v hvmem) (le_of_lt htot)
  have hsum1 : probs.sum = 1 := by
    rw [hprobs, list_sum_map_div, list_map_self, sum_filter_pos vals h,
      div_self (ne_of_gt htot)]
  have hS_le : (probs.map fun p => p * Real.logb 2 p).sum ≤ 0 := by
    apply list_sum_nonpos
    intro x hx
    obtain ⟨p, hp, rfl⟩ := List.mem_map.1 hx
    have h1 := hp_pos p hp
    have h2 := Real.logb_nonpos one_lt_two (le_of_lt h1) (hp_le p hp)
    have h3 := mul_le_mul_of_nonneg_left h2 (le_of_lt h1)
    simpa using h3
  by_cases hemp : probs.isEmpty
  · rw [if_pos hemp]
    exact ⟨le_refl 0, zero_le_one⟩
  rw [if_neg hemp]
  by_cases hlen : 1 < probs.length
  · rw [if_pos hlen]
    have hL2 : (0:ℝ) < Real.log 2 := Real.log_pos one_lt_two
    have hn2 : (2:ℝ) ≤ (probs.length : ℝ) := by exact_mod_cast hlen
    have hn0 : (0:ℝ) < (probs.length : ℝ) := by linarith
    have hmaxpos : 0 < Real.logb 2 (probs.length : ℝ) :=
      Real.logb_pos one_lt_two (by linarith)
    rw [if_neg (ne_of_gt hmaxpos)]
    have key2 : ∀ p ∈ probs,
        p * Real.log (1 / ((probs.length : ℝ) * p)) ≤ 1 / (probs.length : ℝ) - p := by
      intro p hp
      have hp0 := hp_pos p hp
      have hlog := Real.log_le_sub_one_of_pos
        (show (0:ℝ) < 1 / ((probs.length : ℝ) * p) by positivity)
      have h2 := mul_le_mul_of_nonneg_left hlog (le_of_lt hp0)
      have h3 : p * (1 / ((probs.length : ℝ) * p) - 1) = 1 / (probs.length : ℝ) - p := by
        field_simp
        ring
      linarith
    have hsum_le : (probs.map fun p => p * Real.log (1 / ((probs.length : ℝ) * p))).sum ≤
        (probs.map fun p => 1 / (probs.length : ℝ) - p).sum := List.sum_le_sum key2
    have hrhs : (probs.map fun p => 1 / (probs.length : ℝ) - p).sum = 0 := by
      rw [list_sum_map_sub (f := fun _ => 1 / (probs.length : ℝ)) (g := fun p => p),
        list_sum_map_const, list_map_self, hsum1, mul_one_div_cancel (ne_of_gt hn0)]
      norm_num
    have hlhs : (probs.map fun p => p * Real.log (1 / ((probs.length : ℝ) * p))).sum =
        -Real.log (probs.length : ℝ) - (probs.map fun p => p * Real.log p).sum := by
      have hcong : ∀ p ∈ probs, p * Real.log (1 / ((probs.length : ℝ) * p)) =
          (-Real.log (probs.length : ℝ)) * p - p * Real.log p := by
        intro p hp
        have hp0 := hp_pos p hp
        rw [one_div, Real.log_inv, Real.log_mul (ne_of_gt hn0) (ne_of_gt hp0)]
        ring
      rw [List.map_congr_left hcong,
        list_sum_map_sub (f := fun p => (-Real.log (probs.length : ℝ)) * p)
          (g := fun p => p * Real.log p),
        list_sum_map_mul_left, list_map_self, hsum1, mul_one]
    have hgibbs : -((probs.map fun p => p * Real.log p).sum) ≤
        Real.log (probs.length : ℝ) := by
      rw [hlhs, hrhs] at hsum_le
      linarith
    have hS2 : (probs.map fun p => p * Real.logb 2 p).sum =
        (probs.map fun p => p * Real.log p).sum / Real.log 2 := by
      have hcong : ∀ p ∈ probs, p * Real.logb 2 p = (p * Real.log p) / Real.log 2 := by
        intro p _
        rw [Real.logb]
        ring
      rw [List.map_congr_left hcong,
        list_sum_map_div (f := fun p => p * Real.log p)]
    have hfin : -((probs.map fun p => p * Real.logb 2 p).sum) ≤
        Real.logb 2 (probs.length : ℝ) := by
      rw [hS2, Real.logb, ← neg_div]
      exact (div_le_div_right hL2).2 hgibbs
    constructor
    · exact div_nonneg (neg_nonneg.2 hS_le) (le_of_lt hmaxpos)
    · exact (div_le_one hmaxpos).2 hfin
  · rw [if_neg hlen, if_neg one_ne_zero]
    have hone : probs.length = 1 := by
      have h0 : probs ≠ [] := by
        intro hcon
        rw [hcon] at hemp
        exact hemp rfl
      have h1 : 0 < probs.length := List.length_pos.2 h0
      omega
    obtain ⟨p, hp⟩ := List.length_eq_one.1 hone
    have hp1 : p = 1 := by
      have := hsum1
      rw [hp] at this
      simpa using this
    rw [hp, hp1]
    simp [Real.logb_one]

/-- `_entropy` of a counts dict with non-negative values lies in `[0, 1]`. -/
theorem pyEntropy_mem_unit (counts : List (String × ℝ))
    (h : ∀ v ∈ dictVals counts, 0 ≤ v) :
    0 ≤ pyEntropy counts ∧ pyEntropy counts ≤ 1 :=
  entropyVals_mem_unit (dictVals counts) h

theorem zip_avg_comm (a : List ℝ) : ∀ b : List ℝ,
    ((a.zip b).map fun ab => 0.5 * (ab.1 + ab.2)) =
      ((b.zip a).map fun ab => 0.5 * (ab.1 + ab.2)) := by
  induction a with
  | nil => intro b; cases b <;> simp
  | cons x xs ih =>
      intro b
      cases b with
      | nil => simp
      | cons y ys =>
          simp only [List.zip_cons_cons, List.map_cons, List.cons.injEq]
          exact ⟨by ring, ih ys⟩

theorem zip_avg_sum (a : List ℝ) : ∀ b : List ℝ, a.length = b.length →
    (((a.zip b).map fun ab => 0.5 * (ab.1 + ab.2)).sum) = 0.5 * (a.sum + b.sum) := by
  induction a with
  | nil =>
      intro b hlen
      have : b = [] := List.eq_nil_of_length_eq_zero hlen.symm
      simp [this]
  | cons x xs ih =>
      intro b hlen
      cases b with
      | nil => simp at hlen
      | cons y ys =>
          have hlen' : xs.length = ys.length := by simpa using hlen
          simp only [List.zip_cons_cons, List.map_cons, List.sum_cons, ih ys hlen']
          ring

/-- One KL summand against the pointwise average is bounded above by the first
argument (used with `logb 2 (a/m) ≤ logb 2 2 = 1`). -/
theorem klTerm_avg_le (x y : ℝ) (hx : 0 ≤ x) (hy : 0 ≤ y) :
    klTerm x (0.5 * (x + y)) ≤ x := by
  by_cases hc : 0 < x ∧ 0 < 0.5 * (x + y)
  · rw [klTerm, if_pos hc]
    have hm0 : (0:ℝ) < 0.5 * (x + y) := hc.2
    have hdiv : x / (0.5 * (x + y)) ≤ 2 := by
      rw [div_le_iff hm0]
      linarith
    have hlogb : Real.logb 2 (x / (0.5 * (x + y))) ≤ 1 := by
      calc Real.logb 2 (x / (0.5 * (x + y))) ≤ Real.logb 2 2 :=
            Real.logb_le_logb_of_le one_lt_two (div_pos hc.1 hm0) hdiv
        _ = 1 := Real.logb_self_eq_one one_lt_two
    calc x * Real.logb 2 (x / (0.5 * (x + y))) ≤ x * 1 :=
          mul_le_mul_of_nonneg_left hlogb (le_of_lt hc.1)
      _ = x := mul_one x
  · rw [klTerm, if_neg hc]
    exact hx

/-- One KL summand against the pointwise average is bounded below by the
difference quotient `(x - m) / log 2` (from `log t ≥ 1 - 1/t`). -/
theorem klTerm_avg_ge (x y : ℝ) (hx : 0 ≤ x) (hy : 0 ≤ y) :
    (x - 0.5 * (x + y)) / Real.log 2 ≤ klTerm x (0.5 * (x + y)) := by
  have hL2 : (0:ℝ) < Real.log 2 := Real.log_pos one_lt_two
  by_cases hx0 : 0 < x
  · have hm0 : (0:ℝ) < 0.5 * (x + y) := by linarith
    rw [klTerm, if_pos ⟨hx0, hm0⟩]
    have hlog : 1 - (0.5 * (x + y)) / x ≤ Real.log (x / (0.5 * (x + y))) := by
      have h1 : Real.log ((0.5 * (x + y)) / x) ≤ (0.5 * (x + y)) / x - 1 :=
        Real.log_le_sub_one_of_pos (div_pos hm0 hx0)
      have h2 : Real.log (x / (0.5 * (x + y))) = -Real.log ((0.5 * (x + y)) / x) := by
        rw [← Real.log_inv]
        congr 1
        field_simp
      rw [h2]
      linarith
    have hmain : x - 0.5 * (x + y) ≤ x * Real.log (x / (0.5 * (x + y))) := by
      have h3 := mul_le_mul_of_nonneg_left hlog (le_of_lt hx0)
      have h4 : x * (1 - (0.5 * (x + y)) / x) = x - 0.5 * (x + y) := by
        field_simp
      linarith
    rw [Real.logb, ← mul_div_assoc]
    exact (div_le_div_right hL2).2 hmain
  · have hxe : x = 0 := le_antisymm (not_lt.1 hx0) hx
    rw [klTerm, if_neg fun hcon => hx0 hcon.1]
    have h0 : (x - 0.5 * (x + y)) / Real.log 2 ≤ 0 / Real.log 2 := by
      apply (div_le_div_right hL2).2
      rw [hxe]
      linarith
    simpa using h0

/-- For parallel non-negative value lists of equal length, the inner `kl`
sum against the pointwise average lies between `(Σa - Σm) / log 2` and `Σa`. -/
theorem klSum_avg_bounds (a : List ℝ) : ∀ b : List ℝ, a.length = b.length →
    (∀ x ∈ a, 0 ≤ x) → (∀ x ∈ b, 0 ≤ x) →
    (a.sum - ((a.zip b).map fun ab => 0.5 * (ab.1 + ab.2)).sum) / Real.log 2 ≤
        klSum a ((a.zip b).map fun ab => 0.5 * (ab.1 + ab.2)) ∧
      klSum a ((a.zip b).map fun ab => 0.5 * (ab.1 + ab.2)) ≤ a.sum := by
  induction a with
  | nil =>
      intro b _ _ _
      simp [klSum]
  | cons x xs ih =>
      intro b hlen ha hb
      cases b with
      | nil => simp at hlen
      | cons y ys =>
          have hx : 0 ≤ x := ha x (List.mem_cons_self x xs)
          have hy : 0 ≤ y := hb y (List.mem_cons_self y ys)
          have hxs : ∀ v ∈ xs, 0 ≤ v := fun v hv => ha v (List.mem_cons_of_mem x hv)
          have hys : ∀ v ∈ ys, 0 ≤ v := fun v hv => hb v (List.mem_cons_of_mem y hv)
          have hlen' : xs.length = ys.length := by simpa using hlen
          obtain ⟨ih1, ih2⟩ := ih ys hlen' hxs hys
          have hL2 : (0:ℝ) < Real.log 2 := Real.log_pos one_lt_two
          have hup := klTerm_avg_le x y hx hy
          have hlo := klTerm_avg_ge x y hx hy
          simp only [klSum, List.zip_cons_cons, List.map_cons, List.sum_cons] at ih1 ih2 ⊢
          have hsplit : ((x + xs.sum) -
              (0.5 * (x + y) + ((xs.zip ys).map fun ab => 0.5 * (ab.1 + ab.2)).sum)) /
                Real.log 2 =
              (x - 0.5 * (x + y)) / Real.log 2 +
                (xs.sum - ((xs.zip ys).map fun ab => 0.5 * (ab.1 + ab.2)).sum) /
                  Real.log 2 := by
            ring
          constructor
          · rw [hsplit]
            exact add_le_add hlo ih1
          · exact add_le_add hup ih2

theorem pyNormalizeVals_length (vs : List ℝ) : (pyNormalizeVals vs).length = vs.length := by
  simp only [pyNormalizeVals]
  by_cases h : vs.sum ≤ 0 <;> simp [h]

theorem pyNormalizeVals_nonneg (vs : List ℝ) (h : ∀ v ∈ vs, 0 ≤ v) :
    ∀ x ∈ pyNormalizeVals vs, 0 ≤ x := by
  intro x hx
  simp only [pyNormalizeVals] at hx
  by_cases htot : vs.sum ≤ 0
  · rw [if_pos htot] at hx
    obtain ⟨v, _, rfl⟩ := List.mem_map.1 hx
    exact le_refl 0
  · rw [if_neg htot] at hx
    push_neg at htot
    obtain ⟨v, hv, rfl⟩ := List.mem_map.1 hx
    exact div_nonneg (h v hv) (le_of_lt htot)

theorem pyNormalizeVals_sum (vs : List ℝ) :
    (pyNormalizeVals vs).sum = 0 ∨ (pyNormalizeVals vs).sum = 1 := by
  simp only [pyNormalizeVals]
  by_cases htot : vs.sum ≤ 0
  · left
    rw [if_pos htot, list_sum_map_const]
    ring
  · right
    rw [if_neg htot, list_sum_map_div (f := fun v => v), list_map_self]
    exact div_self fun hcon => htot (le_of_eq hcon)

/-- `_js_divergence` of two dicts with non-negative values lies in `[0, 1]`. -/
theorem js_divergence_mem_unit (p q : List (String × ℝ))
    (hp : ∀ v ∈ dictVals p, 0 ≤ v) (hq : ∀ v ∈ dictVals q, 0 ≤ v) :
    0 ≤ js_divergence p q ∧ js_divergence p q ≤ 1 := by
  simp only [js_divergence]
  set keys := (dictKeys p ++ dictKeys q).dedup with hkeys
  have hgetp : ∀ v ∈ keys.map fun k => (dictGet? p k).getD 0, 0 ≤ v := by
    intro v hv
    obtain ⟨k, _, rfl⟩ := List.mem_map.1 hv
    cases hg : dictGet? p k with
    | none => simp [hg]
    | some w =>
        have hw : w ∈ dictVals p := List.mem_map.2 ⟨(k, w), dictGet?_some_mem hg, rfl⟩
        simpa [hg] using hp w hw
  have hgetq : ∀ v ∈ keys.map fun k => (dictGet? q k).getD 0, 0 ≤ v := by
    intro v hv
    obtain ⟨k, _, rfl⟩ := List.mem_map.1 hv
    cases hg : dictGet? q k with
    | none => simp [hg]
    | some w =>
        have hw : w ∈ dictVals q := List.mem_map.2 ⟨(k, w), dictGet?_some_mem hg, rfl⟩
        simpa [hg] using hq w hw
  set pn := pyNormalizeVals (keys.map fun k => (dictGet? p k).getD 0) with hpn
  set qn := pyNormalizeVals (keys.map fun k => (dictGet? q k).getD 0) with hqn
  have hlen : pn.length = qn.length := by
    rw [hpn, hqn, pyNormalizeVals_length, pyNormalizeVals_length]
    simp
  have hpn0 : ∀ x ∈ pn, 0 ≤ x := pyNormalizeVals_nonneg _ hgetp
  have hqn0 : ∀ x ∈ qn, 0 ≤ x := pyNormalizeVals_nonneg _ hgetq
  have hpsum : pn.sum = 0 ∨ pn.sum = 1 := pyNormalizeVals_sum _
  have hqsum : qn.sum = 0 ∨ qn.sum = 1 := pyNormalizeVals_sum _
  obtain ⟨lo₁, up₁⟩ := klSum_avg_bounds pn qn hlen hpn0 hqn0
  obtain ⟨lo₂, up₂⟩ := klSum_avg_bounds qn pn hlen.symm hqn0 hpn0
  rw [zip_avg_comm qn pn] at lo₂ up₂
  have hmsum : ((pn.zip qn).map fun ab => 0.5 * (ab.1 + ab.2)).sum =
      0.5 * (pn.sum + qn.sum) := zip_avg_sum pn qn hlen
  have hL2 : (0:ℝ) < Real.log 2 := Real.log_pos one_lt_two
  have hzero : (pn.sum - ((pn.zip qn).map fun ab => 0.5 * (ab.1 + ab.2)).sum) / Real.log 2 +
      (qn.sum - ((pn.zip qn).map fun ab => 0.5 * (ab.1 + ab.2)).sum) / Real.log 2 = 0 := by
    rw [hmsum]
    field_simp
    ring
  constructor
  · linarith
  · rcases hpsum with hps | hps <;> rcases hqsum with hqs | hqs <;>
      rw [hps] at up₁ <;> rw [hqs] at up₂ <;> linarith

theorem dictVals_dictUpd_cases {K V : Type} [DecidableEq K] (d : List (K × V)) (k : K)
    (f : Option V → V) (v : V) (hv : v ∈ dictVals (dictUpd d k f)) :
    v ∈ dictVals d ∨ ∃ o, v = f o := by
  induction d with
  | nil =>
      simp [dictUpd, dictVals] at hv
      exact Or.inr ⟨none, hv⟩
  | cons a t ih =>
      obtain ⟨k₁, w⟩ := a
      simp only [dictUpd] at hv
      by_cases hk : k₁ = k
      · rw [if_pos hk] at hv
        simp only [dictVals, List.map_cons, List.mem_cons] at hv ⊢
        rcases hv with h | h
        · exact Or.inr ⟨some w, h⟩
        · exact Or.inl (Or.inr h)
      · rw [if_neg hk] at hv
        simp only [dictVals, List.map_cons, List.mem_cons] at hv ⊢
        rcases hv with h | h
        · exact Or.inl (Or.inl h)
        · rcases ih h with h' | h'
          · exact Or.inl (Or.inr h')
          · exact Or.inr h'

/-- Every share of a scenario card returned by `cluster_scenarios` is the
ratio of two (non-negative) game counts. -/
theorem cluster_scenarios_share_nonneg (env : ClusterEnv) (games : List GameRecord) :
    ∀ s ∈ cluster_scenarios env games, 0 ≤ s.share := by
  intro s hs
  simp only [cluster_scenarios, cluster_scenarios_with_labels] at hs
  by_cases hemp : games.isEmpty
  · rw [if_pos hemp] at hs
    simp at hs
  · rw [if_neg hemp] at hs
    simp only [List.mem_mergeSort, List.mem_filterMap] at hs
    obtain ⟨c, _, heq⟩ := hs
    by_cases hce : c.2.isEmpty
    · rw [if_pos hce] at heq
      exact absurd heq (by simp)
    · rw [if_neg hce] at heq
      have := Option.some.inj heq
      subst this
      exact div_nonneg (Nat.cast_nonneg _) (Nat.cast_nonneg _)

theorem scenario_dist_fold_nonneg (l : List ScenarioCard) (hl : ∀ s ∈ l, 0 ≤ s.share) :
    ∀ d₀ : List (String × ℝ), (∀ v ∈ dictVals d₀, 0 ≤ v) →
      ∀ v ∈ dictVals
        (l.foldl (fun d s => dictUpd d (toString s.scenario_id) fun _ => s.share) d₀),
        0 ≤ v := by
  induction l with
  | nil =>
      intro d₀ hd₀ v hv
      exact hd₀ v hv
  | cons s t ih =>
      intro d₀ hd₀ v hv
      simp only [List.foldl_cons] at hv
      refine ih (fun x hx => hl x (List.mem_cons_of_mem s hx)) _ ?_ v hv
      intro w hw
      rcases dictVals_dictUpd_cases _ _ _ w hw with h | ⟨o, rfl⟩
      · exact hd₀ w h
      · exact hl s (List.mem_cons_self s t)

theorem scenario_dist_vals_nonneg (env : ClusterEnv) (games : List GameRecord) :
    ∀ v ∈ dictVals ((cluster_scenarios env games).foldl
      (fun d s => dictUpd d (toString s.scenario_id) fun _ => s.share) []), 0 ≤ v :=
  scenario_dist_fold_nonneg _ (cluster_scenarios_share_nonneg env games) []
    (by simp [dictVals])

theorem cast_counts_vals_nonneg (c : List (String × ℕ)) :
    ∀ v ∈ dictVals (c.map fun cv => (cv.1, (cv.2 : ℝ))), 0 ≤ v := by
  intro v hv
  simp only [dictVals, List.map_map] at hv
  obtain ⟨cv, _, rfl⟩ := List.mem_map.1 hv
  exact Nat.cast_nonneg cv.2

theorem distribution_from_games_nonneg (games : List GameRecord) :
    ∀ v ∈ dictVals (distribution_from_games games), 0 ≤ v := by
  intro v hv
  simp only [distribution_from_games, dictVals, List.map_map] at hv
  obtain ⟨cv, _, rfl⟩ := List.mem_map.1 hv
  exact Nat.cast_nonneg cv.2

/-- The Python-style conditional average of a list of values in `[0, 1]`
(0 when the list is empty) lies in `[0, 1]`. -/
theorem entropies_avg_unit (l : List ℝ) (h : ∀ x ∈ l, 0 ≤ x ∧ x ≤ 1) :
    0 ≤ (if ¬ l.isEmpty then l.sum / (l.length : ℝ) else 0) ∧
      (if ¬ l.isEmpty then l.sum / (l.length : ℝ) else 0) ≤ 1 := by
  by_cases hne : ¬ l.isEmpty
  · rw [if_pos hne]
    have hlen0 : 0 < l.length := by
      cases l with
      | nil => simp at hne
      | cons a t => simp
    have hlenR : (0:ℝ) < (l.length : ℝ) := by exact_mod_cast hlen0
    have hs0 : 0 ≤ l.sum := List.sum_nonneg fun x hx => (h x hx).1
    have hs1 : l.sum ≤ (l.length : ℝ) := by
      have h1 : (l.map fun x => x).sum ≤ (l.map fun _ => (1:ℝ)).sum :=
        List.sum_le_sum fun x hx => (h x hx).2
      rw [list_map_self, list_sum_map_const, mul_one] at h1
      exact h1
    exact ⟨div_nonneg hs0 (le_of_lt hlenR), (div_le_one hlenR).2 hs1⟩
  · rw [if_neg hne]
    exact ⟨le_refl 0, zero_le_one⟩

/-- Each of the four sub-scores of `compute_randomness` lies in `[0, 1]`. -/
theorem randomness_components_unit (env : ClusterEnv) (games : List GameRecord) :
    (0 ≤ (compute_randomness env games).draft_entropy ∧
        (compute_randomness env games).draft_entropy ≤ 1) ∧
      (0 ≤ (compute_randomness env games).player_entropy ∧
        (compute_randomness env games).player_entropy ≤ 1) ∧
      (0 ≤ (compute_randomness env games).scenario_entropy ∧
        (compute_randomness env games).scenario_entropy ≤ 1) ∧
      (0 ≤ (compute_randomness env games).drift ∧
        (compute_randomness env games).drift ≤ 1) := by
  by_cases hemp : games.isEmpty
  · simp only [compute_randomness, if_pos hemp]
    norm_num
  · simp only [compute_randomness, if_neg hemp]
    refine ⟨?_, ?_, ?_, ?_⟩
    · exact pyEntropy_mem_unit _ (distribution_from_games_nonneg games)
    · refine entropies_avg_unit _ ?_
      intro x hx
      obtain ⟨c, _, rfl⟩ := List.mem_map.1 hx
      exact pyEntropy_mem_unit _ (cast_counts_vals_nonneg c)
    · exact pyEntropy_mem_unit _ (scenario_dist_vals_nonneg env games)
    · exact js_divergence_mem_unit _ _ (distribution_from_games_nonneg _)
        (distribution_from_games_nonneg _)

/-- C6: for every clustering environment and game list, `compute_randomness`
returns `score = 100 * (0.35 * draft_entropy + 0.25 * player_entropy +
0.25 * scenario_entropy + 0.15 * drift)`, the score lies in `[0, 100]`, and
for the empty list the score and all four sub-scores are exactly `0`. -/
theorem C6_compute_randomness (env : ClusterEnv) (games : List GameRecord) :
    (compute_randomness env games).score =
        100 * (0.35 * (compute_randomness env games).draft_entropy +
          0.25 * (compute_randomness env games).player_entropy +
          0.25 * (compute_randomness env games).scenario_entropy +
          0.15 * (compute_randomness env games).drift) ∧
      0 ≤ (compute_randomness env games).score ∧
      (compute_randomness env games).score ≤ 100 ∧
      (games = [] →
        (compute_randomness env games).draft_entropy = 0 ∧
        (compute_randomness env games).player_entropy = 0 ∧
        (compute_randomness env games).scenario_entropy = 0 ∧
        (compute_randomness env games).drift = 0 ∧
        (compute_randomness env games).score = 0) := by
  obtain ⟨⟨hd0, hd1⟩, ⟨hp0, hp1⟩, ⟨hs0, hs1⟩, ⟨hr0, hr1⟩⟩ :=
    randomness_components_unit env games
  have hscore : (compute_randomness env games).score =
      100 * (0.35 * (compute_randomness env games).draft_entropy +
        0.25 * (compute_randomness env games).player_entropy +
        0.25 * (compute_randomness env games).scenario_entropy +
        0.15 * (compute_randomness env games).drift) := by
    by_cases hemp : games.isEmpty
    · simp only [compute_randomness, if_pos hemp]
      norm_num
    · simp only [compute_randomness, if_neg hemp]
  refine ⟨hscore, by rw [hscore]; linarith, by rw [hscore]; linarith, ?_⟩
  intro hnil
  subst hnil
  refine ⟨rfl, rfl, rfl, rfl, ?_⟩
  simp only [compute_randomness]
  norm_num

/-- Witness for C6 at the empty game list under a concrete environment. -/
theorem C6_compute_randomness_witness :
    (compute_randomness (fallbackEnv []) []).score = 0 ∧
      (compute_randomness (fallbackEnv []) []).draft_entropy = 0 :=
  ⟨((C6_compute_randomness (fallbackEnv []) []).2.2.2 rfl).2.2.2.2,
    ((C6_compute_randomness (fallbackEnv []) []).2.2.2 rfl).1⟩

/-! ### C1: the report built from an empty game list -/

/-- C1: for the empty game list and any meta (and any ambient recency clock,
hash salt, sklearn oracles and optional pick pools), `build_report` returns a
total `Report` value (so every top-level key of the report is present with a
typed value) whose opponent overview counts zero games, whose randomness
score is zero, whose scenario list is empty, whose counter table has an empty
by-role mapping, and which carries the given meta through unchanged. -/
theorem C1_build_report_empty (recencyWeight : String → ℝ) (env : ClusterEnv)
    (skSignature : List (List ℝ) → ℕ → Option (List Int × ℕ)) (meta : FetchMeta)
    (our_pools? : Option (List (String × List (String × ℝ)))) :
    (build_report recencyWeight env skSignature [] meta our_pools?).opponent_overview.games
        = 0 ∧
      (build_report recencyWeight env skSignature [] meta our_pools?).randomness.score = 0 ∧
      (build_report recencyWeight env skSignature [] meta our_pools?).scenarios = [] ∧
      (build_report recencyWeight env skSignature [] meta our_pools?).counters.by_role
        = [] ∧
      (build_report recencyWeight env skSignature [] meta our_pools?).meta = meta :=
  ⟨rfl, rfl, rfl, rfl, rfl⟩

end Scouting
